import Mathlib

/-!
Verification development for the changefeed state manager (`feedStateManager`,
package `owner`).  The Go source expresses every durable mutation through
patch closures handed to the orchestrator; the embedding mirrors that: each
operation returns the updated in-memory manager together with the ordered
list of emitted patch closures, and `applyPatches` plays the role of the
persistence layer that applies them between ticks.

Times and durations are nanosecond counts.  `time.Unix(0, 0)` (the
"no error pending" sentinel of `lastErrorTime`) is 0; `time.Duration` values
are `Int` so that the backoff stop sentinel (-1) is representable.
-/

/-! ## Durations and tuning constants -/

def second : Nat := 1000000000

def minute : Nat := 60 * second

def defaultBackoffInitInterval : Nat := 10 * second

def defaultBackoffMaxInterval : Nat := 30 * minute

def defaultBackoffMaxElapsedTime : Nat := 90 * minute

def defaultBackoffMultiplier : Nat := 2

def defaultStateWindowSize : Nat := 512

/-! ## Data model (cdc/model) -/

/-- `model.FeedState`.  The Go type is a string; `unInitialized` is its zero
value `""`, which is what a fresh manager's state-history window holds. -/
inductive FeedState where
  | unInitialized
  | normal
  | error
  | warning
  | stopped
  | failed
  | finished
  | removed
deriving DecidableEq, Repr

/-- `model.AdminJobType`. -/
inductive AdminJobType where
  | adminNone
  | adminStop
  | adminResume
  | adminRemove
  | adminFinish
deriving DecidableEq, Repr

/-- `model.RunningError` (the fields the manager reads). -/
structure RunningError where
  code : String
  message : String
deriving DecidableEq, Repr

/-- Modelled from the spec: the error classification predicates
`is-fast-fail(code)` and `is-unretryable(code)` are supplied by a collaborator
(`pkg/errors`, not part of the sources); the manager only consults them via an
error's code. -/
structure ErrClassifier where
  isFastFail : String → Bool
  isUnretryable : String → Bool

/-- Modelled from the spec: `RunningError.IsChangefeedUnRetryableError` (a
`cdc/model` method outside the sources) classifies by the error code; an
absent error is not marked unretryable. -/
def isUnretryableOpt (cl : ErrClassifier) : Option RunningError → Bool
  | some e => cl.isUnretryable e.code
  | none => false

/-- `model.ChangeFeedInfo` (the fields the manager reads or patches). -/
structure ChangeFeedInfo where
  state : FeedState
  adminJobType : AdminJobType
  error : Option RunningError
  warning : Option RunningError
  epoch : Nat
  startTs : Nat
deriving DecidableEq, Repr

/-- `model.ChangeFeedStatus`. -/
structure ChangeFeedStatus where
  resolvedTs : Nat
  checkpointTs : Nat
  minTableBarrierTs : Nat
  adminJobType : AdminJobType
deriving DecidableEq, Repr

/-- `model.TaskPosition` (the fields the manager reads or patches). -/
structure TaskPosition where
  error : Option RunningError
  warning : Option RunningError
deriving DecidableEq, Repr

/-- `model.ChangeFeedID`. -/
structure ChangefeedID where
  ns : String
  id : String
deriving DecidableEq, Repr

/-- `model.AdminJob` (the fields the manager reads). -/
structure AdminJob where
  cfID : ChangefeedID
  jobType : AdminJobType
  overwriteCheckpointTs : Nat
deriving DecidableEq, Repr

/-- `orchestrator.ChangefeedReactorState`: the snapshot the tick reads.  Task
positions are an association list keyed by capture id (a Go map; the
embedding fixes the iteration order to list order). -/
structure ChangefeedReactorState where
  id : ChangefeedID
  info : Option ChangeFeedInfo
  status : Option ChangeFeedStatus
  taskPositions : List (String × TaskPosition)
deriving DecidableEq, Repr

/-- Reads `Info.State`.  Every modelled call site dereferences a non-nil
`Info` in Go (a nil `Info` would panic there); the `none` branch returns the
zero value of the string-typed `FeedState` and is never exercised under the
hypotheses of the theorems below. -/
def infoState : Option ChangeFeedInfo → FeedState
  | some i => i.state
  | none => .unInitialized

/-- Reads `Info.Error` (no dereference in Go: used only to hand the field to
the nil-tolerant classifier). -/
def infoError : Option ChangeFeedInfo → Option RunningError
  | some i => i.error
  | none => none

/-- Reads `Info.Epoch` of a present info value. -/
def infoEpoch : Option ChangeFeedInfo → Nat
  | some i => i.epoch
  | none => 0

/-! ## Patch closures and their application

`PatchInfo` / `PatchStatus` / `PatchTaskPosition` enqueue pure closures; the
orchestrator applies them, in order, to the latest persisted value.  The Go
closures also return an `error` component that every closure in this file
leaves nil, so it is not modelled. -/

inductive Patch where
  | info (f : Option ChangeFeedInfo → Option ChangeFeedInfo × Bool)
  | status (f : Option ChangeFeedStatus → Option ChangeFeedStatus × Bool)
  | position (captureID : String) (f : Option TaskPosition → Option TaskPosition × Bool)

/-- Applies one patch closure to the state, returning the new state and the
closure's changed-flag.  A position patch returning `none` deletes the entry;
one returning `some` on an absent key creates it. -/
def applyPatch (s : ChangefeedReactorState) : Patch → ChangefeedReactorState × Bool
  | .info f =>
    let r := f s.info
    ({ s with info := r.1 }, r.2)
  | .status f =>
    let r := f s.status
    ({ s with status := r.1 }, r.2)
  | .position cap f =>
    match s.taskPositions.find? (fun e => e.1 == cap) with
    | some e =>
      let r := f (some e.2)
      match r.1 with
      | some p =>
        ({ s with taskPositions := s.taskPositions.map (fun e => if e.1 == cap then (e.1, p) else e) }, r.2)
      | none =>
        ({ s with taskPositions := s.taskPositions.filter (fun e => !(e.1 == cap)) }, r.2)
    | none =>
      let r := f none
      match r.1 with
      | some p => ({ s with taskPositions := s.taskPositions ++ [(cap, p)] }, r.2)
      | none => (s, r.2)

def applyPatches (s : ChangefeedReactorState) (ps : List Patch) : ChangefeedReactorState :=
  ps.foldl (fun s p => (applyPatch s p).1) s

/-- The changed-flags reported by a patch list, applied in order. -/
def patchChanges (s : ChangefeedReactorState) (ps : List Patch) : List Bool :=
  (ps.foldl
    (fun (acc : ChangefeedReactorState × List Bool) p =>
      let r := applyPatch acc.1 p
      (r.1, acc.2 ++ [r.2]))
    (s, [])).2

/-! ## Exponential backoff

Modelled from the spec: the manager delegates to
`github.com/cenkalti/backoff/v4.ExponentialBackOff` (not part of the
sources).  Per the spec, `next()` returns non-decreasing durations bounded by
the max interval and returns a stop sentinel once the elapsed budget
(`maxElapsedTime` measured from the last reset) is exhausted; the
thundering-herd randomization factor is not modelled, so `next()`
deterministically returns the current interval and doubles it. -/
structure ExponentialBackOff where
  initialInterval : Nat
  maxInterval : Nat
  multiplier : Nat
  maxElapsedTime : Nat
  currentInterval : Nat
  startTime : Nat
deriving DecidableEq, Repr

/-- `backoff.Stop`: the sentinel duration (-1) returned once the elapsed
budget is exhausted. -/
def backoffStop : Int := -1

/-- Modelled from the spec: `Reset` restarts the interval sequence from the
initial interval and restarts the elapsed-budget clock. -/
def ExponentialBackOff.reset (b : ExponentialBackOff) (now : Nat) : ExponentialBackOff :=
  { b with currentInterval := b.initialInterval, startTime := now }

/-- Modelled from the spec: `NextBackOff` yields the stop sentinel once the
elapsed budget is exhausted, and otherwise the current interval, doubling it
(capped at the max interval) for the next call. -/
def ExponentialBackOff.nextBackOff (b : ExponentialBackOff) (now : Nat) : Int × ExponentialBackOff :=
  if b.maxElapsedTime ≠ 0 ∧ b.maxElapsedTime < now - b.startTime then
    (backoffStop, b)
  else
    ((b.currentInterval : Int),
      { b with currentInterval := min (b.currentInterval * b.multiplier) b.maxInterval })

/-! ## The manager -/

/-- `feedStateManager` (the upstream handle and the bound reactor state are
passed explicitly where the Go methods read them). -/
structure FeedStateManager where
  shouldBeRunning : Bool
  shouldBeRemoved : Bool
  adminJobQueue : List AdminJob
  stateHistory : List FeedState
  lastErrorTime : Nat
  backoffInterval : Int
  errBackoff : ExponentialBackOff
deriving DecidableEq, Repr

/-- `resetErrBackoff`. -/
def resetErrBackoff (m : FeedStateManager) (now : Nat) : FeedStateManager :=
  let b := m.errBackoff.reset now
  let r := b.nextBackOff now
  { m with errBackoff := r.2, backoffInterval := r.1 }

/-- `newFeedStateManager`. -/
def newFeedStateManager (now : Nat) : FeedStateManager :=
  let m :=
    { shouldBeRunning := false
      shouldBeRemoved := false
      adminJobQueue := []
      stateHistory := List.replicate defaultStateWindowSize .unInitialized
      lastErrorTime := 0
      backoffInterval := 0
      errBackoff :=
        { initialInterval := defaultBackoffInitInterval
          maxInterval := defaultBackoffMaxInterval
          multiplier := defaultBackoffMultiplier
          maxElapsedTime := defaultBackoffMaxElapsedTime
          currentInterval := defaultBackoffInitInterval
          startTime := now } : FeedStateManager }
  { resetErrBackoff m now with lastErrorTime := 0 }

/-- `isChangefeedStable`: true when no sample in the window differs from
`normal`. -/
def isChangefeedStable (m : FeedStateManager) : Bool :=
  m.stateHistory.all (· == FeedState.normal)

/-- `shiftStateWindow`: drop the oldest sample, append the newest (the Go
loop over the fixed 512-slot array). -/
def shiftStateWindow (m : FeedStateManager) (state : FeedState) : FeedStateManager :=
  { m with stateHistory := m.stateHistory.drop 1 ++ [state] }

def ShouldRunning (m : FeedStateManager) : Bool := m.shouldBeRunning

def ShouldRemoved (m : FeedStateManager) : Bool := m.shouldBeRemoved

def pushAdminJob (m : FeedStateManager) (job : AdminJob) : FeedStateManager :=
  { m with adminJobQueue := m.adminJobQueue ++ [job] }

/-- `popAdminJob`: `none` when the queue is empty, else the head (removed). -/
def popAdminJob (m : FeedStateManager) : Option AdminJob × FeedStateManager :=
  match m.adminJobQueue with
  | [] => (none, m)
  | j :: rest => (some j, { m with adminJobQueue := rest })

/-! ## patchState -/

/-- The target-state table of `patchState`: mapped admin-job-type and the
update-epoch flag.  `none` corresponds to the Go `log.Panic("Unreachable")`
default, which no call site reaches. -/
def patchStateMeta : FeedState → Option (AdminJobType × Bool)
  | .normal => some (.adminNone, false)
  | .finished => some (.adminFinish, true)
  | .error => some (.adminStop, true)
  | .stopped => some (.adminStop, true)
  | .failed => some (.adminStop, true)
  | .removed => some (.adminRemove, true)
  | _ => none

/-- The status closure of `patchState`: align `status.AdminJobType` with the
target's mapped type. -/
def patchStateStatusPatch (adminJobType : AdminJobType) : Patch :=
  .status fun
    | none => (none, false)
    | some st =>
      if st.adminJobType ≠ adminJobType then
        (some { st with adminJobType := adminJobType }, true)
      else
        (some st, false)

/-- The info closure of `patchState`: align `info.State` and
`info.AdminJobType`; when the admin-job-type changes and the target's
update-epoch flag is set, stamp a fresh epoch (`GenerateChangefeedEpoch`,
supplied here as `freshEpoch` since the oracle is an external collaborator). -/
def patchStateInfoPatch (feedState : FeedState) (adminJobType : AdminJobType)
    (updateEpoch : Bool) (freshEpoch : Nat) : Patch :=
  .info fun
    | none => (none, false)
    | some i =>
      let stateChanged := i.state ≠ feedState
      let i1 := if i.state ≠ feedState then { i with state := feedState } else i
      if i.adminJobType ≠ adminJobType then
        let i2 := { i1 with adminJobType := adminJobType }
        (some (if updateEpoch then { i2 with epoch := freshEpoch } else i2), true)
      else
        (some i1, decide stateChanged)

/-- `patchState`: the two closures it enqueues, in order. -/
def patchState (freshEpoch : Nat) (feedState : FeedState) : List Patch :=
  match patchStateMeta feedState with
  | none => []
  | some (adminJobType, updateEpoch) =>
    [patchStateStatusPatch adminJobType,
     patchStateInfoPatch feedState adminJobType updateEpoch freshEpoch]

/-! ## cleanUpInfos and the processor-report collectors -/

/-- `cleanUpInfos`: patch every task position to nil (changed iff the
position was present). -/
def cleanUpInfos (s : ChangefeedReactorState) : List Patch :=
  s.taskPositions.map fun e => .position e.1 (fun pos => (none, pos.isSome))

/-- The position closure emitted by `errorsReportedByProcessors` for a
reporting capture: clear the error field. -/
def clearErrorPatch (cap : String) : Patch :=
  .position cap fun
    | none => (none, false)
    | some p => (some { p with error := none }, true)

/-- The position closure emitted by `warningsReportedByProcessors` for a
reporting capture: clear the warning field. -/
def clearWarningPatch (cap : String) : Patch :=
  .position cap fun
    | none => (none, false)
    | some p => (some { p with warning := none }, true)

/-- One step of the Go `runningErrors[err.Code] = err` map write: keep the
slot of the first occurrence of a code, let the latest value win. -/
def upsertByCode (acc : List (String × RunningError)) (e : RunningError) :
    List (String × RunningError) :=
  if acc.any (fun kv => kv.1 == e.code) then
    acc.map (fun kv => if kv.1 == e.code then (kv.1, e) else kv)
  else
    acc ++ [(e.code, e)]

/-- `errorsReportedByProcessors`: collect the errors held by task positions
(coalesced by code) and emit a clearing patch per reporting position.  The Go
loop does both in one pass over the map; the embedding fixes list order as
the iteration order. -/
def errorsReportedByProcessors (s : ChangefeedReactorState) :
    List RunningError × List Patch :=
  (((s.taskPositions.filterMap (fun e => e.2.error)).foldl upsertByCode []).map Prod.snd,
   (s.taskPositions.filter (fun e => e.2.error.isSome)).map (fun e => clearErrorPatch e.1))

/-- `warningsReportedByProcessors`, symmetric to the error collector. -/
def warningsReportedByProcessors (s : ChangefeedReactorState) :
    List RunningError × List Patch :=
  (((s.taskPositions.filterMap (fun e => e.2.warning)).foldl upsertByCode []).map Prod.snd,
   (s.taskPositions.filter (fun e => e.2.warning.isSome)).map (fun e => clearWarningPatch e.1))

/-! ## handleError / handleWarning -/

structure HandleResult where
  fsm : FeedStateManager
  patches : List Patch

/-- The info closure writing one (fast-fail or unretryable) error to
`info.Error`. -/
def errorInfoPatch (err : RunningError) : Patch :=
  .info fun
    | none => (none, false)
    | some i => (some { i with error := some err }, true)

/-- The info closure of the retryable branch: the Go loop writes every error
of the batch to `info.Error`, so the last one wins; changed iff the batch is
non-empty. -/
def retryableErrorsInfoPatch (errs : List RunningError) : Patch :=
  .info fun
    | none => (none, false)
    | some i =>
      (some (match errs.getLast? with
             | some e => { i with error := some e }
             | none => i),
       decide (errs.length > 0))

/-- The info closure of `handleWarning`: the last warning of the batch wins;
changed iff the batch is non-empty. -/
def warningInfoPatch (errs : List RunningError) : Patch :=
  .info fun
    | none => (none, false)
    | some i =>
      (some (match errs.getLast? with
             | some e => { i with warning := some e }
             | none => i),
       decide (errs.length > 0))

/-- `handleError`.  `now` stands for `time.Now()`; `freshEpoch` for the epoch
the oracle would return inside the `patchState` closure. -/
def handleError (cl : ErrClassifier) (now freshEpoch : Nat)
    (m : FeedStateManager) (s : ChangefeedReactorState)
    (errs : List RunningError) : HandleResult :=
  match errs.find? (fun e => cl.isFastFail e.code) with
  | some err =>
    { fsm := { m with shouldBeRunning := false }
      patches := errorInfoPatch err :: patchState freshEpoch .failed }
  | none =>
    if (match s.info with | some i => i.state == FeedState.stopped | none => false) then
      { fsm := m, patches := [] }
    else
      match errs.find? (fun e => cl.isUnretryable e.code) with
      | some err =>
        { fsm := { m with shouldBeRunning := false }
          patches := errorInfoPatch err :: patchState freshEpoch .error }
      | none =>
        let p0 := retryableErrorsInfoPatch errs
        let m1 :=
          if errs.length > 0 then
            let m' := { m with lastErrorTime := now }
            if isChangefeedStable m' then resetErrBackoff m' now else m'
          else
            if infoState s.info = .normal then { m with lastErrorTime := 0 } else m
        let m2 := shiftStateWindow m1 (infoState s.info)
        if m2.lastErrorTime = 0 then
          { fsm := m2, patches := [p0] }
        else if ((now : Int) - (m2.lastErrorTime : Int)) < m2.backoffInterval then
          { fsm := { m2 with shouldBeRunning := false }
            patches := p0 :: patchState freshEpoch .error }
        else
          let r := m2.errBackoff.nextBackOff now
          let m3 := { m2 with backoffInterval := r.1, lastErrorTime := 0, errBackoff := r.2 }
          if m3.backoffInterval = backoffStop then
            { fsm := { m3 with shouldBeRunning := false }
              patches := p0 :: patchState freshEpoch .failed }
          else
            { fsm := m3, patches := [p0] }

/-- `handleWarning`: a single info patch recording the last warning. -/
def handleWarning (errs : List RunningError) : List Patch :=
  [warningInfoPatch errs]

/-! ## handleAdminJob -/

structure AdminResult where
  fsm : FeedStateManager
  patches : List Patch
  jobsPending : Bool

/-- The `AdminResume` info closure: overwrite `StartTs` when the job carries
an overwrite checkpoint, and clear `info.Error`. -/
def resumeInfoPatch (job : AdminJob) : Patch :=
  .info fun
    | none => (none, false)
    | some i =>
      let c1 := decide (job.overwriteCheckpointTs > 0)
      let i1 :=
        if job.overwriteCheckpointTs > 0 then
          { i with startTs := job.overwriteCheckpointTs }
        else i
      (some (if i1.error.isSome then { i1 with error := none } else i1),
       c1 || i1.error.isSome)

/-- The `AdminResume` status closure: when the job carries an overwrite
checkpoint, replace the status with fresh timestamps (the Go closure reads
`status.CheckpointTs` only for the log line). -/
def resumeStatusPatch (job : AdminJob) : Patch :=
  .status fun st =>
    if job.overwriteCheckpointTs > 0 then
      (some { resolvedTs := job.overwriteCheckpointTs
              checkpointTs := job.overwriteCheckpointTs
              minTableBarrierTs := job.overwriteCheckpointTs
              adminJobType := .adminNone }, true)
    else
      (st, false)

/-- The per-job switch of `handleAdminJob` (after the pop and the changefeed
id check).  A job not permitted in the current state is rejected with only a
warning log: no mutation and `jobsPending` stays false. -/
def applyAdminJob (now freshEpoch : Nat) (m : FeedStateManager)
    (s : ChangefeedReactorState) (job : AdminJob) : AdminResult :=
  match job.jobType with
  | .adminStop =>
    match infoState s.info with
    | .normal | .error =>
      { fsm := { m with shouldBeRunning := false }
        patches := patchState freshEpoch .stopped
        jobsPending := true }
    | _ => { fsm := m, patches := [], jobsPending := false }
  | .adminRemove =>
    match infoState s.info with
    | .normal | .error | .failed | .stopped | .finished | .removed =>
      { fsm := { m with shouldBeRunning := false, shouldBeRemoved := true }
        patches := [.info fun _ => (none, true), .status fun _ => (none, true)]
        jobsPending := true }
    | _ => { fsm := m, patches := [], jobsPending := false }
  | .adminResume =>
    match infoState s.info with
    | .failed | .error | .stopped | .finished =>
      { fsm := { resetErrBackoff { m with shouldBeRunning := true } now with lastErrorTime := 0 }
        patches := patchState freshEpoch .normal ++ [resumeInfoPatch job, resumeStatusPatch job]
        jobsPending := true }
    | _ => { fsm := m, patches := [], jobsPending := false }
  | .adminFinish =>
    match infoState s.info with
    | .normal =>
      { fsm := { m with shouldBeRunning := false }
        patches := patchState freshEpoch .finished
        jobsPending := true }
    | _ => { fsm := m, patches := [], jobsPending := false }
  | .adminNone => { fsm := m, patches := [], jobsPending := false }

/-- `handleAdminJob`: pop at most one job; a missing job or one addressed to
another changefeed yields no work (the popped job is dropped either way). -/
def handleAdminJob (now freshEpoch : Nat) (m : FeedStateManager)
    (s : ChangefeedReactorState) : AdminResult :=
  match popAdminJob m with
  | (none, m') => { fsm := m', patches := [], jobsPending := false }
  | (some job, m') =>
    if job.cfID ≠ s.id then
      { fsm := m', patches := [], jobsPending := false }
    else
      applyAdminJob now freshEpoch m' s job

/-! ## Tick -/

structure TickResult where
  fsm : FeedStateManager
  patches : List Patch
  adminJobPending : Bool

/-- The body of `Tick` before the deferred exit step. -/
def tickBody (cl : ErrClassifier) (now freshEpoch : Nat)
    (m : FeedStateManager) (s : ChangefeedReactorState) : TickResult :=
  let a := handleAdminJob now freshEpoch m s
  if a.jobsPending then
    { fsm := a.fsm, patches := a.patches, adminJobPending := true }
  else
    let m := a.fsm
    match infoState s.info with
    | .removed =>
      { fsm := { m with shouldBeRunning := false, shouldBeRemoved := true }
        patches := a.patches, adminJobPending := false }
    | .stopped | .failed | .finished =>
      { fsm := { m with shouldBeRunning := false }
        patches := a.patches, adminJobPending := false }
    | st =>
      if st = .error ∧ isUnretryableOpt cl (infoError s.info) = true then
        { fsm := { m with shouldBeRunning := false }
          patches := a.patches ++ patchState freshEpoch .failed
          adminJobPending := false }
      else
        let e := errorsReportedByProcessors s
        let h := handleError cl now freshEpoch m s e.1
        let w := warningsReportedByProcessors s
        { fsm := h.fsm
          patches := a.patches ++ e.2 ++ h.patches ++ w.2 ++ handleWarning w.1
          adminJobPending := false }

/-- `Tick`: optimistically set `shouldBeRunning`, run the body, then the
deferred exit step: patch toward `normal` when still running, otherwise clear
the task positions. -/
def Tick (cl : ErrClassifier) (now freshEpoch : Nat)
    (m : FeedStateManager) (s : ChangefeedReactorState) : TickResult :=
  let r := tickBody cl now freshEpoch { m with shouldBeRunning := true } s
  if r.fsm.shouldBeRunning then
    { r with patches := r.patches ++ patchState freshEpoch .normal }
  else
    { r with patches := r.patches ++ cleanUpInfos s }

/-- `MarkFinished` when a state is bound: enqueue an internal finish job. -/
def markFinished (m : FeedStateManager) (s : ChangefeedReactorState) : FeedStateManager :=
  pushAdminJob m { cfID := s.id, jobType := .adminFinish, overwriteCheckpointTs := 0 }

/-! ## Helper lemmas -/

theorem applyPatches_nil (s : ChangefeedReactorState) : applyPatches s [] = s := rfl

theorem applyPatches_cons (s : ChangefeedReactorState) (p : Patch) (ps : List Patch) :
    applyPatches s (p :: ps) = applyPatches (applyPatch s p).1 ps := rfl

theorem applyPatches_append (s : ChangefeedReactorState) (ps qs : List Patch) :
    applyPatches s (ps ++ qs) = applyPatches (applyPatches s ps) qs := by
  simp [applyPatches, List.foldl_append]

/-- Position patches leave info, status and id untouched. -/
theorem applyPatch_position_fields (s : ChangefeedReactorState) (c : String)
    (f : Option TaskPosition → Option TaskPosition × Bool) :
    (applyPatch s (.position c f)).1.info = s.info ∧
    (applyPatch s (.position c f)).1.status = s.status ∧
    (applyPatch s (.position c f)).1.id = s.id := by
  simp only [applyPatch]
  rcases h : s.taskPositions.find? (fun e => e.1 == c) with _ | e
  · rcases h2 : (f none).1 with _ | p <;> simp [h, h2]
  · rcases h2 : (f (some e.2)).1 with _ | p <;> simp [h, h2]

def Patch.isPosition : Patch → Bool
  | .position _ _ => true
  | _ => false

theorem applyPatches_positions_fields (ps : List Patch) :
    ∀ s : ChangefeedReactorState, (∀ p ∈ ps, p.isPosition = true) →
      (applyPatches s ps).info = s.info ∧ (applyPatches s ps).status = s.status ∧
      (applyPatches s ps).id = s.id := by
  induction ps with
  | nil => intro s _; exact ⟨rfl, rfl, rfl⟩
  | cons p ps ih =>
    intro s h
    have hp := h p (List.mem_cons_self p ps)
    cases p with
    | info f => simp [Patch.isPosition] at hp
    | status f => simp [Patch.isPosition] at hp
    | position c f =>
      have h1 := applyPatch_position_fields s c f
      have h2 := ih (applyPatch s (.position c f)).1 (fun q hq => h q (List.mem_cons_of_mem _ hq))
      rw [applyPatches_cons]
      exact ⟨h2.1.trans h1.1, h2.2.1.trans h1.2.1, h2.2.2.trans h1.2.2⟩

theorem collectors_of_clean (s : ChangefeedReactorState)
    (h : ∀ e ∈ s.taskPositions, e.2.error = none ∧ e.2.warning = none) :
    errorsReportedByProcessors s = ([], []) ∧ warningsReportedByProcessors s = ([], []) := by
  have h1 : s.taskPositions.filterMap (fun e => e.2.error) = [] :=
    List.filterMap_eq_nil_iff.mpr (fun a ha => (h a ha).1)
  have h2 : s.taskPositions.filterMap (fun e => e.2.warning) = [] :=
    List.filterMap_eq_nil_iff.mpr (fun a ha => (h a ha).2)
  have h3 : s.taskPositions.filter (fun e => e.2.error.isSome) = [] := by
    rw [List.filter_eq_nil_iff]
    intro a ha
    simp [(h a ha).1]
  have h4 : s.taskPositions.filter (fun e => e.2.warning.isSome) = [] := by
    rw [List.filter_eq_nil_iff]
    intro a ha
    simp [(h a ha).2]
  simp [errorsReportedByProcessors, warningsReportedByProcessors, h1, h2, h3, h4]

theorem applyPatches_cleanup_aux (l : List (String × TaskPosition)) :
    ∀ t : ChangefeedReactorState, (∀ e ∈ t.taskPositions, e.1 ∈ l.map Prod.fst) →
      applyPatches t (l.map fun e => Patch.position e.1 (fun pos => (none, pos.isSome))) =
        { t with taskPositions := [] } := by
  induction l with
  | nil =>
    intro t ht
    have hpos : t.taskPositions = [] := by
      cases hpos : t.taskPositions with
      | nil => rfl
      | cons e rest => exact absurd (ht e (by rw [hpos]; exact List.mem_cons_self e rest)) (by simp)
    rcases t with ⟨tid, tinfo, tstatus, tpos⟩
    simp only at hpos
    subst hpos
    rfl
  | cons e rest ih =>
    intro t ht
    rw [List.map_cons, applyPatches_cons]
    have hstep : (applyPatch t (Patch.position e.1 (fun pos => (none, pos.isSome)))).1 =
        { t with taskPositions := t.taskPositions.filter (fun x => !(x.1 == e.1)) } := by
      simp only [applyPatch]
      rcases hf : t.taskPositions.find? (fun x => x.1 == e.1) with _ | x
      · have hid : t.taskPositions.filter (fun x => !(x.1 == e.1)) = t.taskPositions := by
          rw [List.filter_eq_self]
          intro a ha
          have := List.find?_eq_none.mp hf a ha
          simpa using this
        simp [hf, hid]
      · simp [hf]
    rw [hstep]
    rw [ih _ ?_]
    intro x hx
    have hx' := List.mem_filter.mp hx
    have hmem := ht x hx'.1
    rw [List.map_cons] at hmem
    rcases List.mem_cons.mp hmem with h | h
    · have hb := hx'.2
      rw [h] at hb
      simp at hb
    · exact h

theorem applyPatches_cleanUpInfos (s t : ChangefeedReactorState)
    (h : t.taskPositions = s.taskPositions) :
    applyPatches t (cleanUpInfos s) = { t with taskPositions := [] } := by
  apply applyPatches_cleanup_aux
  intro e he
  rw [h] at he
  exact List.mem_map_of_mem Prod.fst he

/-! ## Sample data for concrete instantiations -/

def sampleID : ChangefeedID := ⟨"default", "cf"⟩

/-- A classifier marking code "F" fast-fail and code "U" unretryable. -/
def sampleClassifier : ErrClassifier := ⟨fun c => c == "F", fun c => c == "U"⟩

def sampleBackoff : ExponentialBackOff :=
  { initialInterval := 10, maxInterval := 3000, multiplier := 2
    maxElapsedTime := 5000, currentInterval := 10, startTime := 0 }

def sampleManager : FeedStateManager :=
  { shouldBeRunning := false, shouldBeRemoved := false, adminJobQueue := []
    stateHistory := [], lastErrorTime := 0, backoffInterval := 10
    errBackoff := sampleBackoff }

def sampleInfo : ChangeFeedInfo :=
  { state := .normal, adminJobType := .adminNone, error := none, warning := none
    epoch := 0, startTs := 0 }

def sampleStatus : ChangeFeedStatus :=
  { resolvedTs := 0, checkpointTs := 0, minTableBarrierTs := 0, adminJobType := .adminNone }

def sampleState : ChangefeedReactorState :=
  ⟨sampleID, some sampleInfo, some sampleStatus, []⟩

/-! ## Field-preservation lemmas for the handlers -/

theorem handleError_preserves (cl : ErrClassifier) (now freshEpoch : Nat)
    (m : FeedStateManager) (s : ChangefeedReactorState) (errs : List RunningError) :
    (handleError cl now freshEpoch m s errs).fsm.shouldBeRemoved = m.shouldBeRemoved ∧
    (handleError cl now freshEpoch m s errs).fsm.adminJobQueue = m.adminJobQueue := by
  unfold handleError resetErrBackoff shiftStateWindow
  repeat' split <;> (try exact ⟨rfl, rfl⟩) <;> (try simp_all)

theorem handleAdminJob_removed_mono (now freshEpoch : Nat)
    (m : FeedStateManager) (s : ChangefeedReactorState) (h : m.shouldBeRemoved = true) :
    (handleAdminJob now freshEpoch m s).fsm.shouldBeRemoved = true := by
  unfold handleAdminJob popAdminJob
  cases hq : m.adminJobQueue with
  | nil => simpa [hq] using h
  | cons j rest =>
    simp only [hq]
    unfold applyAdminJob resetErrBackoff
    repeat' split <;> (try simp_all)

/-- C9: no operation resets the removal flag. -/
theorem shouldBeRemoved_monotone (cl : ErrClassifier) (now freshEpoch : Nat)
    (m : FeedStateManager) (s : ChangefeedReactorState) (job : AdminJob)
    (h : ShouldRemoved m = true) :
    ShouldRemoved (Tick cl now freshEpoch m s).fsm = true ∧
    ShouldRemoved (pushAdminJob m job) = true ∧
    ShouldRemoved (markFinished m s) = true := by
  refine ⟨?_, h, h⟩
  unfold ShouldRemoved at h ⊢
  unfold Tick tickBody
  have hadmin : (handleAdminJob now freshEpoch { m with shouldBeRunning := true } s).fsm.shouldBeRemoved = true :=
    handleAdminJob_removed_mono now freshEpoch { m with shouldBeRunning := true } s h
  have herr := fun errs =>
    (handleError_preserves cl now freshEpoch
      (handleAdminJob now freshEpoch { m with shouldBeRunning := true } s).fsm s errs).1
  repeat' split <;> simp_all

/-- C9: the removal flag is monotone: once set, neither a tick nor an
enqueue operation resets it. -/
theorem shouldBeRemoved_monotone_witness :
    ShouldRemoved (Tick sampleClassifier 1 2 { sampleManager with shouldBeRemoved := true } sampleState).fsm = true ∧
    ShouldRemoved (pushAdminJob { sampleManager with shouldBeRemoved := true }
      { cfID := sampleID, jobType := .adminStop, overwriteCheckpointTs := 0 }) = true ∧
    ShouldRemoved (markFinished { sampleManager with shouldBeRemoved := true } sampleState) = true :=
  shouldBeRemoved_monotone sampleClassifier 1 2 { sampleManager with shouldBeRemoved := true }
    sampleState { cfID := sampleID, jobType := .adminStop, overwriteCheckpointTs := 0 } rfl

/-- C5: the `patchState` info closure stamps the oracle epoch exactly when
the target's update-epoch flag is set and `info.AdminJobType` differs from
the target's mapped admin-job-type; a `normal` target never touches the
epoch. -/
theorem patchState_epoch_update (freshEpoch : Nat) (t : FeedState)
    (jt : AdminJobType) (ue : Bool) (s : ChangefeedReactorState) (i : ChangeFeedInfo)
    (hmeta : patchStateMeta t = some (jt, ue))
    (hi : s.info = some i) :
    infoEpoch (applyPatches s (patchState freshEpoch t)).info =
      (if ue = true ∧ i.adminJobType ≠ jt then freshEpoch else i.epoch) ∧
    (t = .normal → infoEpoch (applyPatches s (patchState freshEpoch t)).info = i.epoch) := by
  have hstep : ∀ (u : ChangefeedReactorState), u.info = some i →
      infoEpoch (applyPatch u (patchStateInfoPatch t jt ue freshEpoch)).1.info =
        (if ue = true ∧ i.adminJobType ≠ jt then freshEpoch else i.epoch) := by
    intro u hu
    simp only [patchStateInfoPatch, applyPatch, hu]
    by_cases hadmin : i.adminJobType = jt <;> by_cases hstate : i.state = t <;>
      cases ue <;> simp [hadmin, hstate, infoEpoch]
  have hmain : infoEpoch (applyPatches s (patchState freshEpoch t)).info =
      (if ue = true ∧ i.adminJobType ≠ jt then freshEpoch else i.epoch) := by
    simp only [patchState, hmeta]
    rw [show applyPatches s [patchStateStatusPatch jt, patchStateInfoPatch t jt ue freshEpoch] =
        (applyPatch (applyPatch s (patchStateStatusPatch jt)).1
          (patchStateInfoPatch t jt ue freshEpoch)).1 from rfl]
    exact hstep _ ((show (applyPatch s (patchStateStatusPatch jt)).1.info = s.info from rfl).trans hi)
  refine ⟨hmain, fun ht => ?_⟩
  subst ht
  have hue : ue = false := by
    simp only [patchStateMeta] at hmeta
    exact (Prod.mk.injEq _ _ _ _ ▸ (Option.some.injEq _ _ ▸ hmeta)).2.symm ▸ rfl
  rw [hmain, hue]
  simp

theorem patchState_epoch_update_witness :
    infoEpoch (applyPatches sampleState (patchState 99 .failed)).info =
      (if true = true ∧ sampleInfo.adminJobType ≠ AdminJobType.adminStop then 99
       else sampleInfo.epoch) ∧
    (FeedState.failed = .normal →
      infoEpoch (applyPatches sampleState (patchState 99 .failed)).info = sampleInfo.epoch) :=
  patchState_epoch_update 99 .failed .adminStop true sampleState sampleInfo rfl rfl

/-- C8: when the whole state window is `normal` and a non-empty batch of
retryable errors is handled, the backoff is reset, so the restart interval in
force afterwards is the initial interval. -/
theorem handleError_stability_reset (cl : ErrClassifier) (now freshEpoch : Nat)
    (m : FeedStateManager) (s : ChangefeedReactorState) (i : ChangeFeedInfo)
    (errs : List RunningError)
    (hi : s.info = some i) (hns : i.state ≠ .stopped)
    (hne : errs ≠ [])
    (hff : errs.find? (fun e => cl.isFastFail e.code) = none)
    (hur : errs.find? (fun e => cl.isUnretryable e.code) = none)
    (hwin : m.stateHistory.all (· == FeedState.normal) = true)
    (_hlen : m.stateHistory.length = defaultStateWindowSize)
    (hinit : 0 < m.errBackoff.initialInterval) :
    (handleError cl now freshEpoch m s errs).fsm.backoffInterval =
      (m.errBackoff.initialInterval : Int) := by
  have hlenpos : 0 < errs.length := List.length_pos.mpr hne
  have hguard : (i.state == FeedState.stopped) = false := by
    simp [hns]
  have hstable : isChangefeedStable { m with lastErrorTime := now } = true := by
    simpa [isChangefeedStable] using hwin
  simp only [handleError, hff, hur, hi, hguard, Bool.false_eq_true, if_false, hlenpos, if_true,
    hstable, resetErrBackoff, ExponentialBackOff.reset, ExponentialBackOff.nextBackOff,
    shiftStateWindow, Nat.sub_self, Nat.not_lt_zero, and_false, ne_eq]
  split
  · rfl
  · split
    · rfl
    · exfalso
      rename_i hz hlt
      apply hlt
      simp only [Int.sub_self]
      exact_mod_cast hinit

theorem handleError_stability_reset_witness :
    (handleError sampleClassifier 7 3
        { sampleManager with stateHistory := List.replicate defaultStateWindowSize .normal }
        sampleState [⟨"E", "boom"⟩]).fsm.backoffInterval =
      (sampleBackoff.initialInterval : Int) :=
  handleError_stability_reset sampleClassifier 7 3
    { sampleManager with stateHistory := List.replicate defaultStateWindowSize .normal }
    sampleState sampleInfo [⟨"E", "boom"⟩] rfl (by decide) (by decide) (by decide)
    (by decide)
    (by
      rw [List.all_eq_true]
      intro x hx
      rw [List.eq_of_mem_replicate hx]
      exact beq_self_eq_true FeedState.normal)
    (List.length_replicate defaultStateWindowSize FeedState.normal) (by decide)

/-! ## Nil-safety of info patches (C10) -/

/-- The nil-safety property of a patch: an info closure applied to a deleted
(nil) info reports `(nil, false)` — it neither dereferences nor resurrects. -/
def infoPatchNilSafe : Patch → Prop
  | .info f => f none = (none, false)
  | _ => True

theorem infoPatchNilSafe_patchState (freshEpoch : Nat) (t : FeedState) :
    ∀ p ∈ patchState freshEpoch t, infoPatchNilSafe p := by
  intro p hp
  unfold patchState at hp
  split at hp
  · simp at hp
  · rcases List.mem_cons.mp hp with h | h
    · subst h; trivial
    · rcases List.mem_singleton.mp h with h
      subst h; exact rfl

theorem infoPatchNilSafe_handleError (cl : ErrClassifier) (now freshEpoch : Nat)
    (m : FeedStateManager) (s : ChangefeedReactorState) (errs : List RunningError) :
    ∀ p ∈ (handleError cl now freshEpoch m s errs).patches, infoPatchNilSafe p := by
  intro p hp
  unfold handleError at hp
  split at hp
  · rcases List.mem_cons.mp hp with h | h
    · subst h; exact rfl
    · exact infoPatchNilSafe_patchState _ _ p h
  · split at hp
    · simp at hp
    · split at hp
      · rcases List.mem_cons.mp hp with h | h
        · subst h; exact rfl
        · exact infoPatchNilSafe_patchState _ _ p h
      · dsimp only at hp
        repeat' split at hp
        all_goals
          rcases List.mem_cons.mp hp with h | h
        all_goals first
          | (subst h; exact rfl)
          | exact infoPatchNilSafe_patchState _ _ p h
          | simp at h

/-- C10: every info-patch closure emitted by the error handler, the warning
handler, the resume branch of the admin handler, and `patchState`, applied to
a nil info value, returns `(nil, false)`: a concurrently deleted changefeed
is never resurrected. -/
theorem infoPatch_nil_safe (cl : ErrClassifier) (now freshEpoch : Nat)
    (m : FeedStateManager) (s : ChangefeedReactorState)
    (errs warns : List RunningError) (job : AdminJob) (t : FeedState) :
    (∀ p ∈ (handleError cl now freshEpoch m s errs).patches, infoPatchNilSafe p) ∧
    (∀ p ∈ handleWarning warns, infoPatchNilSafe p) ∧
    (job.jobType = .adminResume →
      ∀ p ∈ (applyAdminJob now freshEpoch m s job).patches, infoPatchNilSafe p) ∧
    (∀ p ∈ patchState freshEpoch t, infoPatchNilSafe p) := by
  refine ⟨infoPatchNilSafe_handleError cl now freshEpoch m s errs, ?_, ?_,
    infoPatchNilSafe_patchState freshEpoch t⟩
  · intro p hp
    rcases List.mem_singleton.mp hp with h
    subst h; exact rfl
  · intro hjob p hp
    simp only [applyAdminJob, hjob] at hp
    split at hp <;> (try dsimp only at hp) <;>
      first
        | exact absurd hp (List.not_mem_nil p)
        | (rcases List.mem_append.mp hp with h | h
           · exact infoPatchNilSafe_patchState _ _ p h
           · rcases List.mem_cons.mp h with h1 | h1
             · subst h1; exact rfl
             · rcases List.mem_singleton.mp h1 with h1
               subst h1; trivial)

theorem infoPatch_nil_safe_witness :
    infoPatchNilSafe (warningInfoPatch [⟨"W", "w"⟩]) :=
  (infoPatch_nil_safe sampleClassifier 1 2 sampleManager sampleState [] [⟨"W", "w"⟩]
    ⟨sampleID, .adminResume, 0⟩ .normal).2.1 (warningInfoPatch [⟨"W", "w"⟩])
    (List.mem_singleton.mpr rfl)

/-! ## Full characterization of an applied patchState -/

theorem applyPatch_patchStateStatusPatch (u : ChangefeedReactorState) (jt : AdminJobType) :
    (applyPatch u (patchStateStatusPatch jt)).1 =
      { u with status := match u.status with
               | none => none
               | some st => some { st with adminJobType := jt } } := by
  rcases hst : u.status with _ | st
  · simp [applyPatch, patchStateStatusPatch, hst]
  · by_cases h : st.adminJobType = jt <;>
      simp [applyPatch, patchStateStatusPatch, hst, h]
    cases st
    simp_all

theorem applyPatches_patchState (freshEpoch : Nat) (t : FeedState)
    (jt : AdminJobType) (ue : Bool) (hmeta : patchStateMeta t = some (jt, ue))
    (u : ChangefeedReactorState) (i : ChangeFeedInfo) (hu : u.info = some i) :
    applyPatches u (patchState freshEpoch t) =
      { u with
        info := some { state := t, adminJobType := jt, error := i.error, warning := i.warning,
                       epoch := if ue = true ∧ i.adminJobType ≠ jt then freshEpoch else i.epoch,
                       startTs := i.startTs },
        status := match u.status with
                  | none => none
                  | some st => some { st with adminJobType := jt } } := by
  simp only [patchState, hmeta]
  rw [show applyPatches u [patchStateStatusPatch jt, patchStateInfoPatch t jt ue freshEpoch] =
      (applyPatch (applyPatch u (patchStateStatusPatch jt)).1
        (patchStateInfoPatch t jt ue freshEpoch)).1 from rfl]
  rw [applyPatch_patchStateStatusPatch]
  have hu1 : ({ u with status := match u.status with
               | none => none
               | some st => some { st with adminJobType := jt } } : ChangefeedReactorState).info =
      some i := hu
  simp only [patchStateInfoPatch, applyPatch, hu1]
  by_cases hadmin : i.adminJobType = jt <;> by_cases hstate : i.state = t <;> cases ue <;>
    cases i <;> simp_all

/-- C2: the restart gate of the error handler.  With a pending
last-error-time, an elapsed time below the backoff interval keeps the feed
down in `error`; otherwise the interval advances to `next()` and
last-error-time is cleared, reaching `failed` exactly when `next()` is the
stop sentinel and leaving should-run untouched otherwise. -/
theorem handleError_restart_gate (cl : ErrClassifier) (now freshEpoch : Nat)
    (m : FeedStateManager) (s : ChangefeedReactorState) (i : ChangeFeedInfo)
    (hi : s.info = some i) (hstop : i.state ≠ .stopped) (hnorm : i.state ≠ .normal)
    (hlet : m.lastErrorTime ≠ 0) :
    (((now : Int) - (m.lastErrorTime : Int) < m.backoffInterval →
        (handleError cl now freshEpoch m s []).fsm.shouldBeRunning = false ∧
        infoState (applyPatches s (handleError cl now freshEpoch m s []).patches).info =
          .error) ∧
     (¬((now : Int) - (m.lastErrorTime : Int) < m.backoffInterval) →
        (handleError cl now freshEpoch m s []).fsm.backoffInterval =
          (m.errBackoff.nextBackOff now).1 ∧
        (handleError cl now freshEpoch m s []).fsm.lastErrorTime = 0 ∧
        ((m.errBackoff.nextBackOff now).1 = backoffStop →
          (handleError cl now freshEpoch m s []).fsm.shouldBeRunning = false ∧
          infoState (applyPatches s (handleError cl now freshEpoch m s []).patches).info =
            .failed) ∧
        ((m.errBackoff.nextBackOff now).1 ≠ backoffStop →
          (handleError cl now freshEpoch m s []).fsm.shouldBeRunning =
            m.shouldBeRunning))) := by
  have hguard : (i.state == FeedState.stopped) = false := by simp [hstop]
  have hp0 : ∀ u : ChangefeedReactorState, u.info = some i →
      (applyPatch u (retryableErrorsInfoPatch [])).1.info = some i := by
    intro u hu
    simp [applyPatch, retryableErrorsInfoPatch, hu]
  simp only [handleError, List.find?_nil, hi, hguard, Bool.false_eq_true, if_false,
    List.length_nil, gt_iff_lt, Nat.lt_irrefl, infoState, hnorm, shiftStateWindow, hlet]
  constructor
  · intro hlt
    rw [if_pos hlt]
    refine ⟨rfl, ?_⟩
    rw [applyPatches_cons,
      applyPatches_patchState freshEpoch .error .adminStop true rfl _ i (hp0 s hi)]
  · intro hge
    rw [if_neg hge]
    refine ⟨?_, ?_, ?_, ?_⟩
    · split <;> rfl
    · split <;> rfl
    · intro hsent
      rw [if_pos hsent]
      refine ⟨rfl, ?_⟩
      rw [applyPatches_cons,
        applyPatches_patchState freshEpoch .failed .adminStop true rfl _ i (hp0 s hi)]
    · intro hsent
      rw [if_neg hsent]

theorem handleError_restart_gate_witness :
    (handleError sampleClassifier 1 2 { sampleManager with lastErrorTime := 5 }
        { sampleState with info := some { sampleInfo with state := .error } } []).fsm.shouldBeRunning =
      false ∧
    infoState (applyPatches { sampleState with info := some { sampleInfo with state := .error } }
        (handleError sampleClassifier 1 2 { sampleManager with lastErrorTime := 5 }
          { sampleState with info := some { sampleInfo with state := .error } } []).patches).info =
      .error :=
  (handleError_restart_gate sampleClassifier 1 2 { sampleManager with lastErrorTime := 5 }
    { sampleState with info := some { sampleInfo with state := .error } }
    { sampleInfo with state := .error } rfl (by decide) (by decide) (by decide)).1 (by decide)

/-! ## Resume (C3) -/

theorem resetErrBackoff_interval (m : FeedStateManager) (now : Nat) :
    (resetErrBackoff m now).backoffInterval = (m.errBackoff.initialInterval : Int) := by
  simp only [resetErrBackoff, ExponentialBackOff.reset, ExponentialBackOff.nextBackOff,
    Nat.sub_self]
  rw [if_neg]
  rintro ⟨-, h2⟩
  exact absurd h2 (Nat.not_lt_zero _)

theorem applyPatches_pair (s : ChangefeedReactorState) (p q : Patch) :
    applyPatches s [p, q] = (applyPatch (applyPatch s p).1 q).1 := rfl

theorem applyPatches_patchState_normal (freshEpoch : Nat) (u : ChangefeedReactorState)
    (i : ChangeFeedInfo) (hu : u.info = some i) :
    applyPatches u (patchState freshEpoch .normal) =
      { u with
        info := some { state := .normal, adminJobType := .adminNone, error := i.error,
                       warning := i.warning, epoch := i.epoch, startTs := i.startTs },
        status := match u.status with
                  | none => none
                  | some st => some { st with adminJobType := .adminNone } } := by
  rw [applyPatches_patchState freshEpoch .normal .adminNone false rfl u i hu]
  simp

theorem applyPatch_resumeInfoPatch (u : ChangefeedReactorState) (i1 : ChangeFeedInfo)
    (job : AdminJob) (hu : u.info = some i1) :
    (applyPatch u (resumeInfoPatch job)).1 =
      { u with
        info := some { state := i1.state, adminJobType := i1.adminJobType, error := none,
                       warning := i1.warning, epoch := i1.epoch,
                       startTs := if job.overwriteCheckpointTs > 0 then
                                    job.overwriteCheckpointTs
                                  else i1.startTs } } := by
  simp only [applyPatch, resumeInfoPatch, hu]
  by_cases hts : job.overwriteCheckpointTs > 0 <;>
    rcases herr : i1.error with _ | e <;>
    simp [hts, herr] <;> cases i1 <;> simp_all

theorem applyPatch_resumeStatusPatch (u : ChangefeedReactorState) (job : AdminJob) :
    (applyPatch u (resumeStatusPatch job)).1 =
      { u with status :=
          if job.overwriteCheckpointTs > 0 then
            some { resolvedTs := job.overwriteCheckpointTs
                   checkpointTs := job.overwriteCheckpointTs
                   minTableBarrierTs := job.overwriteCheckpointTs
                   adminJobType := .adminNone }
          else u.status } := by
  by_cases hts : job.overwriteCheckpointTs > 0 <;> simp [applyPatch, resumeStatusPatch, hts]

/-- C3: after a `Resume` admin job handled from `failed`, `error`, `stopped`
or `finished`, the error is cleared, the last-error-time is the sentinel, the
backoff is back at the initial interval and the state is patched to
`normal`; a positive overwrite checkpoint lands in `info.StartTs` and in all
three status timestamps. -/
theorem resume_hygiene (cl : ErrClassifier) (now freshEpoch : Nat)
    (m : FeedStateManager) (s : ChangefeedReactorState) (i : ChangeFeedInfo)
    (st : ChangeFeedStatus) (job : AdminJob) (rest : List AdminJob)
    (hq : m.adminJobQueue = job :: rest)
    (hcf : job.cfID = s.id)
    (hjob : job.jobType = .adminResume)
    (hi : s.info = some i)
    (hst : s.status = some st)
    (hstate : i.state = .failed ∨ i.state = .error ∨ i.state = .stopped ∨ i.state = .finished) :
    (Tick cl now freshEpoch m s).fsm.lastErrorTime = 0 ∧
    (Tick cl now freshEpoch m s).fsm.backoffInterval = (m.errBackoff.initialInterval : Int) ∧
    infoError (applyPatches s (Tick cl now freshEpoch m s).patches).info = none ∧
    infoState (applyPatches s (Tick cl now freshEpoch m s).patches).info = .normal ∧
    (job.overwriteCheckpointTs > 0 →
      (∃ i', (applyPatches s (Tick cl now freshEpoch m s).patches).info = some i' ∧
        i'.startTs = job.overwriteCheckpointTs) ∧
      (applyPatches s (Tick cl now freshEpoch m s).patches).status =
        some { resolvedTs := job.overwriteCheckpointTs
               checkpointTs := job.overwriteCheckpointTs
               minTableBarrierTs := job.overwriteCheckpointTs
               adminJobType := .adminNone }) := by
  have hadmin : handleAdminJob now freshEpoch { m with shouldBeRunning := true } s =
      { fsm := { resetErrBackoff { m with shouldBeRunning := true, adminJobQueue := rest } now
                 with lastErrorTime := 0 }
        patches := patchState freshEpoch .normal ++ [resumeInfoPatch job, resumeStatusPatch job]
        jobsPending := true } := by
    unfold handleAdminJob popAdminJob
    simp only [hq]
    rw [if_neg (by simp [hcf])]
    unfold applyAdminJob
    simp only [hjob, hi, infoState]
    rcases hstate with h | h | h | h <;> rw [h]
  have htick : Tick cl now freshEpoch m s =
      { fsm := { resetErrBackoff { m with shouldBeRunning := true, adminJobQueue := rest } now
                 with lastErrorTime := 0 }
        patches := (patchState freshEpoch .normal ++
            [resumeInfoPatch job, resumeStatusPatch job]) ++ patchState freshEpoch .normal
        adminJobPending := true } := by
    unfold Tick tickBody
    rw [hadmin]
    rfl
  rw [htick]
  refine ⟨rfl, resetErrBackoff_interval _ now, ?_⟩
  rw [show ((patchState freshEpoch .normal ++
        [resumeInfoPatch job, resumeStatusPatch job]) ++ patchState freshEpoch .normal : List Patch) =
      ((patchState freshEpoch .normal ++ [resumeInfoPatch job, resumeStatusPatch job]) ++
        patchState freshEpoch .normal : List Patch) from rfl,
    applyPatches_append, applyPatches_append,
    applyPatches_patchState_normal freshEpoch s i hi, applyPatches_pair,
    applyPatch_resumeInfoPatch _ _ job rfl, applyPatch_resumeStatusPatch,
    applyPatches_patchState_normal freshEpoch _ _ rfl]
  by_cases hts : job.overwriteCheckpointTs > 0 <;>
    simp [infoError, infoState, hts, hst]

def resumeJob : AdminJob := ⟨sampleID, .adminResume, 42⟩

def resumeManager : FeedStateManager := { sampleManager with adminJobQueue := [resumeJob] }

def failedInfo : ChangeFeedInfo := { sampleInfo with state := .failed, error := some ⟨"E", "e"⟩ }

def failedStatus : ChangeFeedStatus :=
  { resolvedTs := 1, checkpointTs := 2, minTableBarrierTs := 3, adminJobType := .adminStop }

def failedReactorState : ChangefeedReactorState :=
  { sampleState with info := some failedInfo, status := some failedStatus }

theorem resume_hygiene_witness :
    (Tick sampleClassifier 9 5 resumeManager failedReactorState).fsm.lastErrorTime = 0 ∧
    (Tick sampleClassifier 9 5 resumeManager failedReactorState).fsm.backoffInterval =
      (resumeManager.errBackoff.initialInterval : Int) ∧
    infoError (applyPatches failedReactorState
      (Tick sampleClassifier 9 5 resumeManager failedReactorState).patches).info = none ∧
    infoState (applyPatches failedReactorState
      (Tick sampleClassifier 9 5 resumeManager failedReactorState).patches).info = .normal ∧
    (resumeJob.overwriteCheckpointTs > 0 →
      (∃ i', (applyPatches failedReactorState
          (Tick sampleClassifier 9 5 resumeManager failedReactorState).patches).info = some i' ∧
        i'.startTs = resumeJob.overwriteCheckpointTs) ∧
      (applyPatches failedReactorState
          (Tick sampleClassifier 9 5 resumeManager failedReactorState).patches).status =
        some { resolvedTs := resumeJob.overwriteCheckpointTs
               checkpointTs := resumeJob.overwriteCheckpointTs
               minTableBarrierTs := resumeJob.overwriteCheckpointTs
               adminJobType := .adminNone }) :=
  resume_hygiene sampleClassifier 9 5 resumeManager failedReactorState failedInfo failedStatus
    resumeJob [] rfl rfl rfl rfl rfl (Or.inl rfl)

/-! ## Admin exclusivity (C4) -/

def mismatchJob : AdminJob := ⟨⟨"default", "other"⟩, .adminStop, 0⟩

def mismatchManager : FeedStateManager := { sampleManager with adminJobQueue := [mismatchJob] }

def errReactorState : ChangefeedReactorState :=
  { sampleState with taskPositions := [("c1", ⟨some ⟨"E", "e"⟩, none⟩)] }

/-- C4 counterexample: a queued job addressed to another changefeed is
consumed from the queue (the queue is empty afterwards), yet the tick
returns false and error handling still runs (the reported error reaches
`info.Error`). -/
theorem tick_admin_consumed_counterexample :
    (Tick sampleClassifier 5 7 mismatchManager errReactorState).adminJobPending = false ∧
    (Tick sampleClassifier 5 7 mismatchManager errReactorState).fsm.adminJobQueue = [] ∧
    infoError (applyPatches errReactorState
      (Tick sampleClassifier 5 7 mismatchManager errReactorState).patches).info =
      some ⟨"E", "e"⟩ := by
  decide

/-- C4 (amended): `Tick` returns true iff the dequeued admin job was
accepted (addressed to this changefeed and permitted in the current state),
and exactly then the tick is the admin handling plus the deferred exit step:
no error or warning handling runs. -/
theorem tick_admin_exclusivity (cl : ErrClassifier) (now freshEpoch : Nat)
    (m : FeedStateManager) (s : ChangefeedReactorState) :
    (Tick cl now freshEpoch m s).adminJobPending =
      (handleAdminJob now freshEpoch { m with shouldBeRunning := true } s).jobsPending ∧
    ((handleAdminJob now freshEpoch { m with shouldBeRunning := true } s).jobsPending = true →
      Tick cl now freshEpoch m s =
        (if (handleAdminJob now freshEpoch { m with shouldBeRunning := true } s).fsm.shouldBeRunning then
          { fsm := (handleAdminJob now freshEpoch { m with shouldBeRunning := true } s).fsm
            patches := (handleAdminJob now freshEpoch { m with shouldBeRunning := true } s).patches ++
              patchState freshEpoch .normal
            adminJobPending := true }
         else
          { fsm := (handleAdminJob now freshEpoch { m with shouldBeRunning := true } s).fsm
            patches := (handleAdminJob now freshEpoch { m with shouldBeRunning := true } s).patches ++
              cleanUpInfos s
            adminJobPending := true })) := by
  constructor
  · unfold Tick tickBody
    repeat' split <;> simp_all
  · intro h
    unfold Tick tickBody
    simp only [h, if_true]

def stopJob : AdminJob := ⟨sampleID, .adminStop, 0⟩

def stopManager : FeedStateManager := { sampleManager with adminJobQueue := [stopJob] }

theorem tick_admin_exclusivity_witness :
    (Tick sampleClassifier 5 7 stopManager sampleState).adminJobPending =
      (handleAdminJob 5 7 { stopManager with shouldBeRunning := true } sampleState).jobsPending ∧
    Tick sampleClassifier 5 7 stopManager sampleState =
      (if (handleAdminJob 5 7 { stopManager with shouldBeRunning := true } sampleState).fsm.shouldBeRunning then
        { fsm := (handleAdminJob 5 7 { stopManager with shouldBeRunning := true } sampleState).fsm
          patches := (handleAdminJob 5 7 { stopManager with shouldBeRunning := true } sampleState).patches ++
            patchState 7 .normal
          adminJobPending := true }
       else
        { fsm := (handleAdminJob 5 7 { stopManager with shouldBeRunning := true } sampleState).fsm
          patches := (handleAdminJob 5 7 { stopManager with shouldBeRunning := true } sampleState).patches ++
            cleanUpInfos sampleState
          adminJobPending := true }) :=
  ⟨(tick_admin_exclusivity sampleClassifier 5 7 stopManager sampleState).1,
   (tick_admin_exclusivity sampleClassifier 5 7 stopManager sampleState).2 (by decide)⟩

/-! ## Fast-fail short-circuit (C1) -/

theorem applyPatches_single (s : ChangefeedReactorState) (p : Patch) :
    applyPatches s [p] = (applyPatch s p).1 := rfl

theorem applyPatch_errorInfoPatch (u : ChangefeedReactorState) (i : ChangeFeedInfo)
    (err : RunningError) (hu : u.info = some i) :
    (applyPatch u (errorInfoPatch err)).1 = { u with info := some { i with error := some err } } := by
  simp [applyPatch, errorInfoPatch, hu]

theorem applyPatch_warningInfoPatch_fields (u : ChangefeedReactorState) (i1 : ChangeFeedInfo)
    (warns : List RunningError) (hu : u.info = some i1) :
    ∃ i2, (applyPatch u (warningInfoPatch warns)).1 = { u with info := some i2 } ∧
      i2.state = i1.state ∧ i2.error = i1.error ∧ i2.adminJobType = i1.adminJobType := by
  simp only [applyPatch, warningInfoPatch, hu]
  rcases h : warns.getLast? with _ | e <;> exact ⟨_, rfl, rfl, rfl, rfl⟩

theorem errorsReported_positions (s : ChangefeedReactorState) :
    ∀ p ∈ (errorsReportedByProcessors s).2, p.isPosition = true := by
  intro p hp
  simp only [errorsReportedByProcessors] at hp
  rcases List.mem_map.mp hp with ⟨e, -, rfl⟩
  rfl

theorem warningsReported_positions (s : ChangefeedReactorState) :
    ∀ p ∈ (warningsReportedByProcessors s).2, p.isPosition = true := by
  intro p hp
  simp only [warningsReportedByProcessors] at hp
  rcases List.mem_map.mp hp with ⟨e, -, rfl⟩
  rfl

theorem cleanUpInfos_positions (s : ChangefeedReactorState) :
    ∀ p ∈ cleanUpInfos s, p.isPosition = true := by
  intro p hp
  rcases List.mem_map.mp hp with ⟨e, -, rfl⟩
  rfl

/-- `Tick` in a fall-through state (no queued job, not an early-return state)
is the report collection, the error and warning handlers, and the deferred
exit step. -/
theorem tick_fallthrough (cl : ErrClassifier) (now freshEpoch : Nat)
    (m : FeedStateManager) (s : ChangefeedReactorState) (i : ChangeFeedInfo)
    (hq : m.adminJobQueue = [])
    (hi : s.info = some i)
    (h1 : i.state ≠ .removed) (h2 : i.state ≠ .stopped) (h3 : i.state ≠ .failed)
    (h4 : i.state ≠ .finished)
    (h5 : ¬(i.state = .error ∧ isUnretryableOpt cl i.error = true)) :
    Tick cl now freshEpoch m s =
      (if (handleError cl now freshEpoch { m with shouldBeRunning := true } s
            (errorsReportedByProcessors s).1).fsm.shouldBeRunning then
        { fsm := (handleError cl now freshEpoch { m with shouldBeRunning := true } s
            (errorsReportedByProcessors s).1).fsm
          patches := (errorsReportedByProcessors s).2 ++
            (handleError cl now freshEpoch { m with shouldBeRunning := true } s
              (errorsReportedByProcessors s).1).patches ++
            (warningsReportedByProcessors s).2 ++
            handleWarning (warningsReportedByProcessors s).1 ++ patchState freshEpoch .normal
          adminJobPending := false }
       else
        { fsm := (handleError cl now freshEpoch { m with shouldBeRunning := true } s
            (errorsReportedByProcessors s).1).fsm
          patches := (errorsReportedByProcessors s).2 ++
            (handleError cl now freshEpoch { m with shouldBeRunning := true } s
              (errorsReportedByProcessors s).1).patches ++
            (warningsReportedByProcessors s).2 ++
            handleWarning (warningsReportedByProcessors s).1 ++ cleanUpInfos s
          adminJobPending := false }) := by
  unfold Tick tickBody handleAdminJob popAdminJob
  simp only [hq, hi, infoState]
  cases hst : i.state
  case removed => exact absurd hst h1
  case stopped => exact absurd hst h2
  case failed => exact absurd hst h3
  case finished => exact absurd hst h4
  case unInitialized => simp [infoError, hi]
  case normal => simp [infoError, hi]
  case warning => simp [infoError, hi]
  case error =>
    have hun : isUnretryableOpt cl i.error ≠ true := fun hc => h5 ⟨hst, hc⟩
    simp [infoError, hi, hun]

/-- Applying the warning collector's position patches, the warning info
patch, and any trailing position patches preserves the state, error and
admin-job-type recorded in info. -/
theorem applied_warn_cleanup (u : ChangefeedReactorState) (i1 : ChangeFeedInfo)
    (hu : u.info = some i1) (w2 : List Patch) (hw2 : ∀ p ∈ w2, p.isPosition = true)
    (warns : List RunningError) (cln : List Patch) (hcln : ∀ p ∈ cln, p.isPosition = true) :
    ∃ i2, (applyPatches (applyPatches (applyPatches u w2) (handleWarning warns)) cln).info =
        some i2 ∧
      i2.state = i1.state ∧ i2.error = i1.error ∧ i2.adminJobType = i1.adminJobType := by
  obtain ⟨hC, -, -⟩ := applyPatches_positions_fields w2 u hw2
  obtain ⟨i2, hD, hDs, hDe, hDa⟩ :=
    applyPatch_warningInfoPatch_fields (applyPatches u w2) i1 warns (hC.trans hu)
  rw [show applyPatches (applyPatches u w2) (handleWarning warns) =
      (applyPatch (applyPatches u w2) (warningInfoPatch warns)).1 from rfl, hD]
  obtain ⟨hE, -, -⟩ := applyPatches_positions_fields cln _ hcln
  exact ⟨i2, hE.trans rfl, hDs, hDe, hDa⟩

/-- C1: a fast-fail error in the batch short-circuits the handler — for any
prior feed state other than `removed` the handler (and, whenever the tick
reaches the handler, the tick) stops the feed, patches `failed`, and writes
exactly the first fast-fail error of the batch to `info.Error`. -/
theorem fast_fail_short_circuit (cl : ErrClassifier) (now freshEpoch : Nat)
    (m : FeedStateManager) (s : ChangefeedReactorState) (i : ChangeFeedInfo)
    (errs : List RunningError) (e0 : RunningError)
    (hi : s.info = some i)
    (hnr : i.state ≠ .removed)
    (hff : errs.find? (fun e => cl.isFastFail e.code) = some e0) :
    ((handleError cl now freshEpoch m s errs).fsm.shouldBeRunning = false ∧
     infoState (applyPatches s (handleError cl now freshEpoch m s errs).patches).info = .failed ∧
     infoError (applyPatches s (handleError cl now freshEpoch m s errs).patches).info = some e0 ∧
     cl.isFastFail e0.code = true) ∧
    (m.adminJobQueue = [] → i.state ≠ .stopped → i.state ≠ .failed → i.state ≠ .finished →
     ¬(i.state = .error ∧ isUnretryableOpt cl i.error = true) →
     errs = (errorsReportedByProcessors s).1 →
     (Tick cl now freshEpoch m s).fsm.shouldBeRunning = false ∧
     infoState (applyPatches s (Tick cl now freshEpoch m s).patches).info = .failed ∧
     infoError (applyPatches s (Tick cl now freshEpoch m s).patches).info = some e0) := by
  have hrA : ∀ mm : FeedStateManager, handleError cl now freshEpoch mm s errs =
      { fsm := { mm with shouldBeRunning := false }
        patches := errorInfoPatch e0 :: patchState freshEpoch .failed } := by
    intro mm
    unfold handleError
    rw [hff]
  have hff0 : cl.isFastFail e0.code = true := by
    have h := List.find?_some hff
    simpa using h
  constructor
  · rw [hrA m]
    refine ⟨rfl, ?_⟩
    dsimp only
    rw [applyPatches_cons, applyPatch_errorInfoPatch s i e0 hi,
      applyPatches_patchState freshEpoch .failed .adminStop true rfl _ _ rfl]
    exact ⟨rfl, rfl, hff0⟩
  · intro hq h2 h3 h4 h5 herrs
    rw [tick_fallthrough cl now freshEpoch m s i hq hi hnr h2 h3 h4 h5, ← herrs, hrA]
    rw [if_neg (by simp)]
    refine ⟨rfl, ?_⟩
    dsimp only
    obtain ⟨hA, -, -⟩ := applyPatches_positions_fields (errorsReportedByProcessors s).2 s
      (errorsReported_positions s)
    have hAi : (applyPatches s (errorsReportedByProcessors s).2).info = some i := hA.trans hi
    rw [applyPatches_append, applyPatches_append, applyPatches_append, applyPatches_append]
    have hB : (applyPatches (applyPatches s (errorsReportedByProcessors s).2)
        (errorInfoPatch e0 :: patchState freshEpoch .failed)).info =
        some { state := .failed, adminJobType := .adminStop, error := some e0,
               warning := i.warning,
               epoch := if true = true ∧ i.adminJobType ≠ AdminJobType.adminStop then freshEpoch
                        else i.epoch,
               startTs := i.startTs } := by
      rw [applyPatches_cons, applyPatch_errorInfoPatch _ i e0 hAi,
        applyPatches_patchState freshEpoch .failed .adminStop true rfl _ _ rfl]
    obtain ⟨i2, hfin, hs2, he2, -⟩ := applied_warn_cleanup _ _ hB
      (warningsReportedByProcessors s).2 (warningsReported_positions s)
      (warningsReportedByProcessors s).1 (cleanUpInfos s) (cleanUpInfos_positions s)
    rw [hfin]
    exact ⟨by simp [infoState, hs2], by simp [infoError, he2]⟩

def fastFailReactorState : ChangefeedReactorState :=
  { sampleState with taskPositions := [("c1", ⟨some ⟨"F", "f"⟩, none⟩)] }

theorem fast_fail_short_circuit_witness :
    ((handleError sampleClassifier 5 7 sampleManager fastFailReactorState
        [⟨"F", "f"⟩]).fsm.shouldBeRunning = false ∧
     infoState (applyPatches fastFailReactorState (handleError sampleClassifier 5 7 sampleManager
        fastFailReactorState [⟨"F", "f"⟩]).patches).info = .failed ∧
     infoError (applyPatches fastFailReactorState (handleError sampleClassifier 5 7 sampleManager
        fastFailReactorState [⟨"F", "f"⟩]).patches).info = some ⟨"F", "f"⟩ ∧
     sampleClassifier.isFastFail (RunningError.code ⟨"F", "f"⟩) = true) ∧
    (sampleManager.adminJobQueue = [] → sampleInfo.state ≠ .stopped →
     sampleInfo.state ≠ .failed → sampleInfo.state ≠ .finished →
     ¬(sampleInfo.state = .error ∧ isUnretryableOpt sampleClassifier sampleInfo.error = true) →
     [(⟨"F", "f"⟩ : RunningError)] = (errorsReportedByProcessors fastFailReactorState).1 →
     (Tick sampleClassifier 5 7 sampleManager fastFailReactorState).fsm.shouldBeRunning = false ∧
     infoState (applyPatches fastFailReactorState
        (Tick sampleClassifier 5 7 sampleManager fastFailReactorState).patches).info = .failed ∧
     infoError (applyPatches fastFailReactorState
        (Tick sampleClassifier 5 7 sampleManager fastFailReactorState).patches).info =
       some ⟨"F", "f"⟩) :=
  fast_fail_short_circuit sampleClassifier 5 7 sampleManager fastFailReactorState sampleInfo
    [⟨"F", "f"⟩] ⟨"F", "f"⟩ rfl (by decide) (by decide)

/-! ## Unretryable promotion (C6) -/

/-- A tick that observes state `error` with an unretryable recorded error
stops the feed and patches `failed`. -/
theorem tick_error_unretryable_step (cl : ErrClassifier) (now freshEpoch : Nat)
    (m : FeedStateManager) (s : ChangefeedReactorState) (i : ChangeFeedInfo)
    (hq : m.adminJobQueue = []) (hi : s.info = some i)
    (hst : i.state = .error) (hu : isUnretryableOpt cl i.error = true) :
    Tick cl now freshEpoch m s =
      { fsm := { m with shouldBeRunning := false }
        patches := patchState freshEpoch .failed ++ cleanUpInfos s
        adminJobPending := false } := by
  unfold Tick tickBody handleAdminJob popAdminJob
  simp [hq, hi, infoState, infoError, hst, hu]

theorem infoState_after_positions (u : ChangefeedReactorState) (ps : List Patch)
    (hps : ∀ p ∈ ps, p.isPosition = true) :
    infoState (applyPatches u ps).info = infoState u.info := by
  obtain ⟨h, -, -⟩ := applyPatches_positions_fields ps u hps
  rw [h]

theorem tick_error_unretryable_conclusions (cl : ErrClassifier) (now freshEpoch : Nat)
    (m : FeedStateManager) (s : ChangefeedReactorState) (i2 : ChangeFeedInfo)
    (hq : m.adminJobQueue = []) (hi : s.info = some i2)
    (hst : i2.state = .error) (hu : isUnretryableOpt cl i2.error = true) :
    (Tick cl now freshEpoch m s).fsm.shouldBeRunning = false ∧
    infoState (applyPatches s (Tick cl now freshEpoch m s).patches).info = .failed := by
  rw [tick_error_unretryable_step cl now freshEpoch m s i2 hq hi hst hu]
  refine ⟨rfl, ?_⟩
  dsimp only
  rw [applyPatches_append, applyPatches_patchState freshEpoch .failed .adminStop true rfl _ i2 hi,
    infoState_after_positions _ _ (cleanUpInfos_positions _)]
  rfl

/-- C6: a tick handling a batch with an unretryable error (no fast-fail,
prior state neither stopped nor an early-return state) records that error,
stops the feed and patches `error`; the following tick observes `error` with
the unretryable error and patches `failed`. -/
theorem unretryable_promotion (cl : ErrClassifier) (now1 eps1 now2 eps2 : Nat)
    (m : FeedStateManager) (s : ChangefeedReactorState) (i : ChangeFeedInfo)
    (e0 : RunningError)
    (hq : m.adminJobQueue = [])
    (hi : s.info = some i)
    (h1 : i.state ≠ .removed) (h2 : i.state ≠ .stopped) (h3 : i.state ≠ .failed)
    (h4 : i.state ≠ .finished)
    (h5 : ¬(i.state = .error ∧ isUnretryableOpt cl i.error = true))
    (hff : (errorsReportedByProcessors s).1.find? (fun e => cl.isFastFail e.code) = none)
    (hur : (errorsReportedByProcessors s).1.find? (fun e => cl.isUnretryable e.code) = some e0) :
    (Tick cl now1 eps1 m s).fsm.shouldBeRunning = false ∧
    infoState (applyPatches s (Tick cl now1 eps1 m s).patches).info = .error ∧
    infoError (applyPatches s (Tick cl now1 eps1 m s).patches).info = some e0 ∧
    (Tick cl now2 eps2 (Tick cl now1 eps1 m s).fsm
      (applyPatches s (Tick cl now1 eps1 m s).patches)).fsm.shouldBeRunning = false ∧
    infoState (applyPatches (applyPatches s (Tick cl now1 eps1 m s).patches)
      (Tick cl now2 eps2 (Tick cl now1 eps1 m s).fsm
        (applyPatches s (Tick cl now1 eps1 m s).patches)).patches).info = .failed := by
  have hur0 : cl.isUnretryable e0.code = true := by
    have h := List.find?_some hur
    simpa using h
  have hrA : ∀ mm : FeedStateManager, handleError cl now1 eps1 mm s
      (errorsReportedByProcessors s).1 =
      { fsm := { mm with shouldBeRunning := false }
        patches := errorInfoPatch e0 :: patchState eps1 .error } := by
    intro mm
    unfold handleError
    rw [hff]
    have hguard : (i.state == FeedState.stopped) = false := by simp [h2]
    simp only [hi, hguard, Bool.false_eq_true, if_false, hur]
  rw [tick_fallthrough cl now1 eps1 m s i hq hi h1 h2 h3 h4 h5, hrA]
  rw [if_neg (by simp)]
  dsimp only
  obtain ⟨hA, -, -⟩ := applyPatches_positions_fields (errorsReportedByProcessors s).2 s
    (errorsReported_positions s)
  have hAi : (applyPatches s (errorsReportedByProcessors s).2).info = some i := hA.trans hi
  rw [applyPatches_append, applyPatches_append, applyPatches_append, applyPatches_append]
  have hB : (applyPatches (applyPatches s (errorsReportedByProcessors s).2)
      (errorInfoPatch e0 :: patchState eps1 .error)).info =
      some { state := .error, adminJobType := .adminStop, error := some e0,
             warning := i.warning,
             epoch := if true = true ∧ i.adminJobType ≠ AdminJobType.adminStop then eps1
                      else i.epoch,
             startTs := i.startTs } := by
    rw [applyPatches_cons, applyPatch_errorInfoPatch _ i e0 hAi,
      applyPatches_patchState eps1 .error .adminStop true rfl _ _ rfl]
  obtain ⟨i2, hfin, hs2, he2, -⟩ := applied_warn_cleanup _ _ hB
    (warningsReportedByProcessors s).2 (warningsReported_positions s)
    (warningsReportedByProcessors s).1 (cleanUpInfos s) (cleanUpInfos_positions s)
  have hs2' : i2.state = .error := by simpa using hs2
  have he2' : i2.error = some e0 := by simpa using he2
  rw [hfin]
  refine ⟨rfl, by simp [infoState, hs2'], by simp [infoError, he2'], ?_, ?_⟩
  · exact (tick_error_unretryable_conclusions cl now2 eps2 _ _ i2 (by simpa using hq) hfin hs2'
      (by simp [isUnretryableOpt, he2', hur0])).1
  · exact (tick_error_unretryable_conclusions cl now2 eps2 _ _ i2 (by simpa using hq) hfin hs2'
      (by simp [isUnretryableOpt, he2', hur0])).2

def unretryableReactorState : ChangefeedReactorState :=
  { sampleState with taskPositions := [("c1", ⟨some ⟨"U", "u"⟩, none⟩)] }

theorem unretryable_promotion_witness :
    (Tick sampleClassifier 5 7 sampleManager unretryableReactorState).fsm.shouldBeRunning = false ∧
    infoState (applyPatches unretryableReactorState
      (Tick sampleClassifier 5 7 sampleManager unretryableReactorState).patches).info = .error ∧
    infoError (applyPatches unretryableReactorState
      (Tick sampleClassifier 5 7 sampleManager unretryableReactorState).patches).info =
      some ⟨"U", "u"⟩ ∧
    (Tick sampleClassifier 11 13 (Tick sampleClassifier 5 7 sampleManager unretryableReactorState).fsm
      (applyPatches unretryableReactorState
        (Tick sampleClassifier 5 7 sampleManager unretryableReactorState).patches)).fsm.shouldBeRunning =
      false ∧
    infoState (applyPatches (applyPatches unretryableReactorState
        (Tick sampleClassifier 5 7 sampleManager unretryableReactorState).patches)
      (Tick sampleClassifier 11 13 (Tick sampleClassifier 5 7 sampleManager unretryableReactorState).fsm
        (applyPatches unretryableReactorState
          (Tick sampleClassifier 5 7 sampleManager unretryableReactorState).patches)).patches).info =
      .failed :=
  unretryable_promotion sampleClassifier 5 7 11 13 sampleManager unretryableReactorState sampleInfo
    ⟨"U", "u"⟩ rfl rfl (by decide) (by decide) (by decide) (by decide) (by decide) (by decide)
    (by decide)

/-! ## Tick idempotence (C7) -/

def quietInfo : ChangeFeedInfo :=
  { state := .warning, adminJobType := .adminNone, error := some ⟨"U", "u"⟩, warning := none
    epoch := 0, startTs := 0 }

def quietReactorState : ChangefeedReactorState := ⟨sampleID, some quietInfo, none, []⟩

def pendingManager : FeedStateManager := { sampleManager with lastErrorTime := 1 }

/-- C7 counterexample: from state `warning` with an unretryable recorded
error and a pending last-error-time within the backoff interval, two
successive ticks with empty input and the same clock do not converge: the
first patches `error`, the second promotes to `failed`, and the second
tick's patches report changes. -/
theorem tick_idempotence_counterexample :
    infoState (applyPatches quietReactorState
      (Tick sampleClassifier 2 7 pendingManager quietReactorState).patches).info = .error ∧
    infoState (applyPatches (applyPatches quietReactorState
        (Tick sampleClassifier 2 7 pendingManager quietReactorState).patches)
      (Tick sampleClassifier 2 7 (Tick sampleClassifier 2 7 pendingManager quietReactorState).fsm
        (applyPatches quietReactorState
          (Tick sampleClassifier 2 7 pendingManager quietReactorState).patches)).patches).info =
      .failed ∧
    ¬(applyPatches (applyPatches quietReactorState
        (Tick sampleClassifier 2 7 pendingManager quietReactorState).patches)
      (Tick sampleClassifier 2 7 (Tick sampleClassifier 2 7 pendingManager quietReactorState).fsm
        (applyPatches quietReactorState
          (Tick sampleClassifier 2 7 pendingManager quietReactorState).patches)).patches =
      applyPatches quietReactorState
        (Tick sampleClassifier 2 7 pendingManager quietReactorState).patches) ∧
    ((patchChanges (applyPatches quietReactorState
        (Tick sampleClassifier 2 7 pendingManager quietReactorState).patches)
      (Tick sampleClassifier 2 7 (Tick sampleClassifier 2 7 pendingManager quietReactorState).fsm
        (applyPatches quietReactorState
          (Tick sampleClassifier 2 7 pendingManager quietReactorState).patches)).patches).all
      (· = false)) = false := by
  decide

theorem tick_early_halt (cl : ErrClassifier) (now freshEpoch : Nat)
    (m : FeedStateManager) (s : ChangefeedReactorState) (i : ChangeFeedInfo)
    (hq : m.adminJobQueue = []) (hi : s.info = some i)
    (hst : i.state = .stopped ∨ i.state = .failed ∨ i.state = .finished) :
    Tick cl now freshEpoch m s =
      { fsm := { m with shouldBeRunning := false }
        patches := cleanUpInfos s
        adminJobPending := false } := by
  unfold Tick tickBody handleAdminJob popAdminJob
  rcases hst with h | h | h <;> simp [hq, hi, infoState, h]

theorem tick_early_removed (cl : ErrClassifier) (now freshEpoch : Nat)
    (m : FeedStateManager) (s : ChangefeedReactorState) (i : ChangeFeedInfo)
    (hq : m.adminJobQueue = []) (hi : s.info = some i)
    (hst : i.state = .removed) :
    Tick cl now freshEpoch m s =
      { fsm := { m with shouldBeRunning := false, shouldBeRemoved := true }
        patches := cleanUpInfos s
        adminJobPending := false } := by
  unfold Tick tickBody handleAdminJob popAdminJob
  simp [hq, hi, infoState, hst]

theorem handleError_nil_normal (cl : ErrClassifier) (now freshEpoch : Nat)
    (m : FeedStateManager) (s : ChangefeedReactorState) (i : ChangeFeedInfo)
    (hi : s.info = some i) (hst : i.state = .normal) :
    handleError cl now freshEpoch m s [] =
      { fsm := shiftStateWindow { m with lastErrorTime := 0 } .normal
        patches := [retryableErrorsInfoPatch []] } := by
  unfold handleError
  simp [hi, hst, infoState, List.find?_nil, shiftStateWindow]

theorem handleError_nil_quiet (cl : ErrClassifier) (now freshEpoch : Nat)
    (m : FeedStateManager) (s : ChangefeedReactorState) (i : ChangeFeedInfo)
    (hi : s.info = some i) (hst1 : i.state ≠ .normal) (hst2 : i.state ≠ .stopped)
    (hlet : m.lastErrorTime = 0) :
    handleError cl now freshEpoch m s [] =
      { fsm := shiftStateWindow m i.state
        patches := [retryableErrorsInfoPatch []] } := by
  unfold handleError
  simp [hi, hst1, hst2, hlet, infoState, List.find?_nil, shiftStateWindow]

theorem handleError_nil_within (cl : ErrClassifier) (now freshEpoch : Nat)
    (m : FeedStateManager) (s : ChangefeedReactorState) (i : ChangeFeedInfo)
    (hi : s.info = some i) (hst1 : i.state ≠ .normal) (hst2 : i.state ≠ .stopped)
    (hlet : m.lastErrorTime ≠ 0)
    (hin : (now : Int) - (m.lastErrorTime : Int) < m.backoffInterval) :
    handleError cl now freshEpoch m s [] =
      { fsm := { shiftStateWindow m i.state with shouldBeRunning := false }
        patches := retryableErrorsInfoPatch [] :: patchState freshEpoch .error } := by
  unfold handleError
  simp [hi, hst1, hst2, hlet, hin, infoState, List.find?_nil, shiftStateWindow]

theorem handleError_nil_advance (cl : ErrClassifier) (now freshEpoch : Nat)
    (m : FeedStateManager) (s : ChangefeedReactorState) (i : ChangeFeedInfo)
    (hi : s.info = some i) (hst1 : i.state ≠ .normal) (hst2 : i.state ≠ .stopped)
    (hlet : m.lastErrorTime ≠ 0)
    (hin : ¬((now : Int) - (m.lastErrorTime : Int) < m.backoffInterval))
    (hns : (m.errBackoff.nextBackOff now).1 ≠ backoffStop) :
    handleError cl now freshEpoch m s [] =
      { fsm := { shiftStateWindow m i.state with
                 backoffInterval := (m.errBackoff.nextBackOff now).1, lastErrorTime := 0,
                 errBackoff := (m.errBackoff.nextBackOff now).2 }
        patches := [retryableErrorsInfoPatch []] } := by
  unfold handleError
  simp [hi, hst1, hst2, hlet, hin, hns, infoState, List.find?_nil, shiftStateWindow]

theorem handleError_nil_exhausted (cl : ErrClassifier) (now freshEpoch : Nat)
    (m : FeedStateManager) (s : ChangefeedReactorState) (i : ChangeFeedInfo)
    (hi : s.info = some i) (hst1 : i.state ≠ .normal) (hst2 : i.state ≠ .stopped)
    (hlet : m.lastErrorTime ≠ 0)
    (hin : ¬((now : Int) - (m.lastErrorTime : Int) < m.backoffInterval))
    (hns : (m.errBackoff.nextBackOff now).1 = backoffStop) :
    handleError cl now freshEpoch m s [] =
      { fsm := { shiftStateWindow m i.state with
                 backoffInterval := (m.errBackoff.nextBackOff now).1, lastErrorTime := 0,
                 errBackoff := (m.errBackoff.nextBackOff now).2, shouldBeRunning := false }
        patches := retryableErrorsInfoPatch [] :: patchState freshEpoch .failed } := by
  unfold handleError
  simp [hi, hst1, hst2, hlet, hin, hns, infoState, List.find?_nil, shiftStateWindow]

theorem applyPatch_warningInfoPatch_nil (u : ChangefeedReactorState) (i1 : ChangeFeedInfo)
    (hu : u.info = some i1) : (applyPatch u (warningInfoPatch [])).1 = u := by
  simp only [applyPatch, warningInfoPatch, hu]
  cases u
  simp_all

theorem applyPatch_warningInfoPatch_some (s : ChangefeedReactorState) (i1 : ChangeFeedInfo)
    (st : Option ChangeFeedStatus) :
    (applyPatch { s with info := some i1, status := st } (warningInfoPatch [])).1 =
      { s with info := some i1, status := st } :=
  applyPatch_warningInfoPatch_nil _ i1 rfl

theorem applyPatches_cleanUpInfos_same (s : ChangefeedReactorState)
    (ifo : Option ChangeFeedInfo) (st : Option ChangeFeedStatus) :
    applyPatches { s with info := ifo, status := st } (cleanUpInfos s) =
      { s with info := ifo, status := st, taskPositions := [] } :=
  applyPatches_cleanUpInfos s _ rfl

/-- A tick in a fall-through state with clean positions whose empty-batch
error handling leaves the feed running: the exit step patches toward
`normal`. -/
theorem tick_quiet_run (cl : ErrClassifier) (now freshEpoch : Nat)
    (m F : FeedStateManager) (s : ChangefeedReactorState) (i : ChangeFeedInfo)
    (hq : m.adminJobQueue = []) (hi : s.info = some i)
    (h1 : i.state ≠ .removed) (h2 : i.state ≠ .stopped) (h3 : i.state ≠ .failed)
    (h4 : i.state ≠ .finished)
    (h5 : ¬(i.state = .error ∧ isUnretryableOpt cl i.error = true))
    (hclean : ∀ e ∈ s.taskPositions, e.2.error = none ∧ e.2.warning = none)
    (hhe : handleError cl now freshEpoch { m with shouldBeRunning := true } s [] =
      { fsm := F, patches := [retryableErrorsInfoPatch []] })
    (hrun : F.shouldBeRunning = true) :
    Tick cl now freshEpoch m s =
      { fsm := F
        patches := [retryableErrorsInfoPatch [], warningInfoPatch []] ++
          patchState freshEpoch .normal
        adminJobPending := false } := by
  obtain ⟨hcol, hwcol⟩ := collectors_of_clean s hclean
  rw [tick_fallthrough cl now freshEpoch m s i hq hi h1 h2 h3 h4 h5, hcol, hwcol]
  dsimp only
  rw [hhe]
  dsimp only
  rw [if_pos hrun]
  simp [handleWarning]

/-- A tick in a fall-through state with clean positions whose empty-batch
error handling stops the feed, patching toward `t`: the exit step clears the
task positions. -/
theorem tick_quiet_halt (cl : ErrClassifier) (now freshEpoch : Nat)
    (m F : FeedStateManager) (s : ChangefeedReactorState) (i : ChangeFeedInfo)
    (t : FeedState)
    (hq : m.adminJobQueue = []) (hi : s.info = some i)
    (h1 : i.state ≠ .removed) (h2 : i.state ≠ .stopped) (h3 : i.state ≠ .failed)
    (h4 : i.state ≠ .finished)
    (h5 : ¬(i.state = .error ∧ isUnretryableOpt cl i.error = true))
    (hclean : ∀ e ∈ s.taskPositions, e.2.error = none ∧ e.2.warning = none)
    (hhe : handleError cl now freshEpoch { m with shouldBeRunning := true } s [] =
      { fsm := F, patches := retryableErrorsInfoPatch [] :: patchState freshEpoch t })
    (hrun : F.shouldBeRunning = false) :
    Tick cl now freshEpoch m s =
      { fsm := F
        patches := ((retryableErrorsInfoPatch [] :: patchState freshEpoch t) ++
          [warningInfoPatch []]) ++ cleanUpInfos s
        adminJobPending := false } := by
  obtain ⟨hcol, hwcol⟩ := collectors_of_clean s hclean
  rw [tick_fallthrough cl now freshEpoch m s i hq hi h1 h2 h3 h4 h5, hcol, hwcol]
  dsimp only
  rw [hhe]
  dsimp only
  rw [if_neg (by simp [hrun])]
  simp [handleWarning]

theorem applied_p0_patchState (freshEpoch : Nat) (t : FeedState) (jt : AdminJobType) (ue : Bool)
    (hmeta : patchStateMeta t = some (jt, ue))
    (s : ChangefeedReactorState) (i : ChangeFeedInfo) (hi : s.info = some i) :
    applyPatches s (retryableErrorsInfoPatch [] :: patchState freshEpoch t) =
      { s with
        info := some { state := t, adminJobType := jt, error := i.error, warning := i.warning,
                       epoch := if ue = true ∧ i.adminJobType ≠ jt then freshEpoch else i.epoch,
                       startTs := i.startTs },
        status := match s.status with
                  | none => none
                  | some st => some { st with adminJobType := jt } } := by
  rw [applyPatches_cons]
  have h0 : (applyPatch s (retryableErrorsInfoPatch [])).1 = { s with info := some i } := by
    simp [applyPatch, retryableErrorsInfoPatch, hi]
  rw [h0, applyPatches_patchState freshEpoch t jt ue hmeta { s with info := some i } i rfl]

/-- The applied effect of the running exit of a quiet tick. -/
theorem applied_quiet_run (freshEpoch : Nat) (s : ChangefeedReactorState) (i : ChangeFeedInfo)
    (hi : s.info = some i) :
    applyPatches s ([retryableErrorsInfoPatch [], warningInfoPatch []] ++
        patchState freshEpoch .normal) =
      { s with
        info := some { state := .normal, adminJobType := .adminNone, error := i.error,
                       warning := i.warning, epoch := i.epoch, startTs := i.startTs },
        status := match s.status with
                  | none => none
                  | some st => some { st with adminJobType := .adminNone } } := by
  have h0 : (applyPatch s (retryableErrorsInfoPatch [])).1 = { s with info := some i } := by
    simp [applyPatch, retryableErrorsInfoPatch, hi]
  rw [show applyPatches s ([retryableErrorsInfoPatch [], warningInfoPatch []] ++
        patchState freshEpoch .normal) =
      applyPatches ((applyPatch ((applyPatch s (retryableErrorsInfoPatch [])).1)
        (warningInfoPatch [])).1) (patchState freshEpoch .normal) from rfl,
    h0, applyPatch_warningInfoPatch_nil _ i rfl,
    applyPatches_patchState_normal freshEpoch { s with info := some i } i rfl]

/-- The applied effect of the halting exit of a quiet tick. -/
theorem applied_quiet_halt (freshEpoch : Nat) (t : FeedState) (jt : AdminJobType) (ue : Bool)
    (hmeta : patchStateMeta t = some (jt, ue))
    (s : ChangefeedReactorState) (i : ChangeFeedInfo) (hi : s.info = some i) :
    applyPatches s (((retryableErrorsInfoPatch [] :: patchState freshEpoch t) ++
        [warningInfoPatch []]) ++ cleanUpInfos s) =
      { s with
        info := some { state := t, adminJobType := jt, error := i.error, warning := i.warning,
                       epoch := if ue = true ∧ i.adminJobType ≠ jt then freshEpoch else i.epoch,
                       startTs := i.startTs },
        status := (match s.status with
                   | none => none
                   | some st => some { st with adminJobType := jt }),
        taskPositions := [] } := by
  rw [applyPatches_append, applyPatches_append,
    applied_p0_patchState freshEpoch t jt ue hmeta s i hi, applyPatches_single,
    applyPatch_warningInfoPatch_some s _ _, applyPatches_cleanUpInfos_same s _ _]

theorem cleanUpInfos_of_empty (s : ChangefeedReactorState) (h : s.taskPositions = []) :
    cleanUpInfos s = [] := by
  simp [cleanUpInfos, h]

theorem applied_quiet_run_fixpoint (freshEpoch : Nat) (s : ChangefeedReactorState)
    (i1 : ChangeFeedInfo) (hi : s.info = some i1) (hst : i1.state = .normal)
    (hadmin : i1.adminJobType = .adminNone)
    (hstatus : ∀ st, s.status = some st → st.adminJobType = .adminNone) :
    applyPatches s ([retryableErrorsInfoPatch [], warningInfoPatch []] ++
      patchState freshEpoch .normal) = s := by
  rw [applied_quiet_run freshEpoch s i1 hi]
  rcases hs : s.status with _ | st
  · cases s
    cases i1
    simp_all
  · have h := hstatus st hs
    cases s
    cases st
    cases i1
    simp_all

theorem applied_quiet_halt_fixpoint (freshEpoch : Nat) (s : ChangefeedReactorState)
    (i1 : ChangeFeedInfo) (hi : s.info = some i1) (hst : i1.state = .error)
    (hadmin : i1.adminJobType = .adminStop)
    (hstatus : ∀ st, s.status = some st → st.adminJobType = .adminStop)
    (hpos : s.taskPositions = []) :
    applyPatches s (((retryableErrorsInfoPatch [] :: patchState freshEpoch .error) ++
      [warningInfoPatch []]) ++ cleanUpInfos s) = s := by
  rw [applied_quiet_halt freshEpoch .error .adminStop true rfl s i1 hi]
  rcases hs : s.status with _ | st
  · cases s
    cases i1
    simp_all
  · have h := hstatus st hs
    cases s
    cases st
    cases i1
    simp_all

theorem patchChanges_quiet_run (freshEpoch : Nat) (s : ChangefeedReactorState)
    (i1 : ChangeFeedInfo) (hi : s.info = some i1) (hst : i1.state = .normal)
    (hadmin : i1.adminJobType = .adminNone)
    (hstatus : ∀ st, s.status = some st → st.adminJobType = .adminNone) :
    (patchChanges s ([retryableErrorsInfoPatch [], warningInfoPatch []] ++
      patchState freshEpoch .normal)).all (· = false) = true := by
  rcases hs : s.status with _ | st
  · simp [patchChanges, applyPatch, retryableErrorsInfoPatch, warningInfoPatch, patchState,
      patchStateMeta, patchStateStatusPatch, patchStateInfoPatch, hi, hs, hst, hadmin]
  · have h := hstatus st hs
    simp [patchChanges, applyPatch, retryableErrorsInfoPatch, warningInfoPatch, patchState,
      patchStateMeta, patchStateStatusPatch, patchStateInfoPatch, hi, hs, hst, hadmin, h]

theorem patchChanges_quiet_halt (freshEpoch : Nat) (s : ChangefeedReactorState)
    (i1 : ChangeFeedInfo) (hi : s.info = some i1) (hst : i1.state = .error)
    (hadmin : i1.adminJobType = .adminStop)
    (hstatus : ∀ st, s.status = some st → st.adminJobType = .adminStop)
    (hpos : s.taskPositions = []) :
    (patchChanges s (((retryableErrorsInfoPatch [] :: patchState freshEpoch .error) ++
      [warningInfoPatch []]) ++ cleanUpInfos s)).all (· = false) = true := by
  rw [cleanUpInfos_of_empty s hpos]
  rcases hs : s.status with _ | st
  · simp [patchChanges, applyPatch, retryableErrorsInfoPatch, warningInfoPatch, patchState,
      patchStateMeta, patchStateStatusPatch, patchStateInfoPatch, hi, hs, hst, hadmin]
  · have h := hstatus st hs
    simp [patchChanges, applyPatch, retryableErrorsInfoPatch, warningInfoPatch, patchState,
      patchStateMeta, patchStateStatusPatch, patchStateInfoPatch, hi, hs, hst, hadmin, h]

theorem tick2_quiet_normal_conclusions (cl : ErrClassifier) (now freshEpoch : Nat)
    (M : FeedStateManager) (s1 : ChangefeedReactorState) (i1 : ChangeFeedInfo)
    (hqM : M.adminJobQueue = [])
    (hi1 : s1.info = some i1) (hst : i1.state = .normal)
    (hadmin : i1.adminJobType = .adminNone)
    (hstatus : ∀ st, s1.status = some st → st.adminJobType = .adminNone)
    (hclean1 : ∀ e ∈ s1.taskPositions, e.2.error = none ∧ e.2.warning = none) :
    applyPatches s1 (Tick cl now freshEpoch M s1).patches = s1 ∧
    (Tick cl now freshEpoch M s1).fsm.shouldBeRunning = true ∧
    (Tick cl now freshEpoch M s1).fsm.shouldBeRemoved = M.shouldBeRemoved ∧
    (Tick cl now freshEpoch M s1).adminJobPending = false ∧
    (patchChanges s1 (Tick cl now freshEpoch M s1).patches).all (· = false) = true := by
  rw [tick_quiet_run cl now freshEpoch M _ s1 i1 hqM hi1 (by simp [hst]) (by simp [hst])
    (by simp [hst]) (by simp [hst]) (by simp [hst]) hclean1
    (handleError_nil_normal cl now freshEpoch { M with shouldBeRunning := true } s1 i1 hi1 hst)
    rfl]
  exact ⟨applied_quiet_run_fixpoint freshEpoch s1 i1 hi1 hst hadmin hstatus, rfl, rfl, rfl,
    patchChanges_quiet_run freshEpoch s1 i1 hi1 hst hadmin hstatus⟩

theorem tick2_quiet_error_conclusions (cl : ErrClassifier) (now freshEpoch : Nat)
    (M : FeedStateManager) (s1 : ChangefeedReactorState) (i1 : ChangeFeedInfo)
    (hqM : M.adminJobQueue = [])
    (hi1 : s1.info = some i1) (hst : i1.state = .error)
    (hadmin : i1.adminJobType = .adminStop)
    (hnu : isUnretryableOpt cl i1.error = false)
    (hlet : M.lastErrorTime ≠ 0)
    (hin : (now : Int) - (M.lastErrorTime : Int) < M.backoffInterval)
    (hstatus : ∀ st, s1.status = some st → st.adminJobType = .adminStop)
    (hpos : s1.taskPositions = []) :
    applyPatches s1 (Tick cl now freshEpoch M s1).patches = s1 ∧
    (Tick cl now freshEpoch M s1).fsm.shouldBeRunning = false ∧
    (Tick cl now freshEpoch M s1).fsm.shouldBeRemoved = M.shouldBeRemoved ∧
    (Tick cl now freshEpoch M s1).adminJobPending = false ∧
    (patchChanges s1 (Tick cl now freshEpoch M s1).patches).all (· = false) = true := by
  have hclean1 : ∀ e ∈ s1.taskPositions, e.2.error = none ∧ e.2.warning = none := by
    rw [hpos]
    intro e he
    exact absurd he (List.not_mem_nil e)
  rw [tick_quiet_halt cl now freshEpoch M _ s1 i1 .error hqM hi1 (by simp [hst]) (by simp [hst])
    (by simp [hst]) (by simp [hst]) (by simp [hst, hnu]) hclean1
    (handleError_nil_within cl now freshEpoch { M with shouldBeRunning := true } s1 i1 hi1
      (by simp [hst]) (by simp [hst]) hlet hin)
    rfl]
  exact ⟨applied_quiet_halt_fixpoint freshEpoch s1 i1 hi1 hst hadmin hstatus hpos, rfl, rfl, rfl,
    patchChanges_quiet_halt freshEpoch s1 i1 hi1 hst hadmin hstatus hpos⟩

theorem tick2_early_conclusions (cl : ErrClassifier) (now freshEpoch : Nat)
    (M : FeedStateManager) (s1 : ChangefeedReactorState) (i1 : ChangeFeedInfo)
    (hqM : M.adminJobQueue = []) (hi1 : s1.info = some i1)
    (hst : i1.state = .stopped ∨ i1.state = .failed ∨ i1.state = .finished)
    (hpos : s1.taskPositions = []) :
    applyPatches s1 (Tick cl now freshEpoch M s1).patches = s1 ∧
    (Tick cl now freshEpoch M s1).fsm.shouldBeRunning = false ∧
    (Tick cl now freshEpoch M s1).fsm.shouldBeRemoved = M.shouldBeRemoved ∧
    (Tick cl now freshEpoch M s1).adminJobPending = false ∧
    (patchChanges s1 (Tick cl now freshEpoch M s1).patches).all (· = false) = true := by
  rw [tick_early_halt cl now freshEpoch M s1 i1 hqM hi1 hst, cleanUpInfos_of_empty s1 hpos]
  exact ⟨rfl, rfl, rfl, rfl, rfl⟩

theorem tick2_removed_conclusions (cl : ErrClassifier) (now freshEpoch : Nat)
    (M : FeedStateManager) (s1 : ChangefeedReactorState) (i1 : ChangeFeedInfo)
    (hqM : M.adminJobQueue = []) (hi1 : s1.info = some i1)
    (hst : i1.state = .removed) (hpos : s1.taskPositions = []) :
    applyPatches s1 (Tick cl now freshEpoch M s1).patches = s1 ∧
    (Tick cl now freshEpoch M s1).fsm.shouldBeRunning = false ∧
    (Tick cl now freshEpoch M s1).fsm.shouldBeRemoved = true ∧
    (Tick cl now freshEpoch M s1).adminJobPending = false ∧
    (patchChanges s1 (Tick cl now freshEpoch M s1).patches).all (· = false) = true := by
  rw [tick_early_removed cl now freshEpoch M s1 i1 hqM hi1 hst, cleanUpInfos_of_empty s1 hpos]
  exact ⟨rfl, rfl, rfl, rfl, rfl⟩

/-- C7 (amended): with an empty admin-job queue and no task-position errors
or warnings, two successive ticks yield the same applied state, the same
manager flags and the same pending result, and every patch closure of the
second tick reports changed = false — except in the excluded configuration
where the recorded state is `warning` or uninitialized, `info.error` is
unretryable, and a pending last-error-time still lies within the backoff
interval (there the first tick demotes to `error` and the second promotes
to `failed`). -/
theorem tick_idempotence (cl : ErrClassifier) (now freshEpoch : Nat)
    (m : FeedStateManager) (s : ChangefeedReactorState) (i : ChangeFeedInfo)
    (hq : m.adminJobQueue = [])
    (hi : s.info = some i)
    (hclean : ∀ e ∈ s.taskPositions, e.2.error = none ∧ e.2.warning = none)
    (hexc : ¬((i.state = .warning ∨ i.state = .unInitialized) ∧
        isUnretryableOpt cl i.error = true ∧ m.lastErrorTime ≠ 0 ∧
        (now : Int) - (m.lastErrorTime : Int) < m.backoffInterval)) :
    applyPatches (applyPatches s (Tick cl now freshEpoch m s).patches)
        (Tick cl now freshEpoch (Tick cl now freshEpoch m s).fsm
          (applyPatches s (Tick cl now freshEpoch m s).patches)).patches =
      applyPatches s (Tick cl now freshEpoch m s).patches ∧
    (Tick cl now freshEpoch (Tick cl now freshEpoch m s).fsm
        (applyPatches s (Tick cl now freshEpoch m s).patches)).fsm.shouldBeRunning =
      (Tick cl now freshEpoch m s).fsm.shouldBeRunning ∧
    (Tick cl now freshEpoch (Tick cl now freshEpoch m s).fsm
        (applyPatches s (Tick cl now freshEpoch m s).patches)).fsm.shouldBeRemoved =
      (Tick cl now freshEpoch m s).fsm.shouldBeRemoved ∧
    (Tick cl now freshEpoch (Tick cl now freshEpoch m s).fsm
        (applyPatches s (Tick cl now freshEpoch m s).patches)).adminJobPending =
      (Tick cl now freshEpoch m s).adminJobPending ∧
    (patchChanges (applyPatches s (Tick cl now freshEpoch m s).patches)
        (Tick cl now freshEpoch (Tick cl now freshEpoch m s).fsm
          (applyPatches s (Tick cl now freshEpoch m s).patches)).patches).all
      (· = false) = true := by
  by_cases hrm : i.state = .removed
  · rw [tick_early_removed cl now freshEpoch m s i hq hi hrm]
    dsimp only
    rw [applyPatches_cleanUpInfos s s rfl]
    refine tick2_removed_conclusions cl now freshEpoch _ _ i ?_ ?_ ?_ ?_
    · exact hq
    · exact hi
    · exact hrm
    · exact rfl
  by_cases hsf : i.state = .stopped ∨ i.state = .failed ∨ i.state = .finished
  · rw [tick_early_halt cl now freshEpoch m s i hq hi hsf]
    dsimp only
    rw [applyPatches_cleanUpInfos s s rfl]
    refine tick2_early_conclusions cl now freshEpoch _ _ i ?_ ?_ ?_ ?_
    · exact hq
    · exact hi
    · exact hsf
    · exact rfl
  by_cases herr : i.state = .error ∧ isUnretryableOpt cl i.error = true
  · rw [tick_error_unretryable_step cl now freshEpoch m s i hq hi herr.1 herr.2]
    dsimp only
    refine tick2_early_conclusions cl now freshEpoch _ _
      { state := FeedState.failed, adminJobType := AdminJobType.adminStop,
        error := i.error, warning := i.warning,
        epoch := if true = true ∧ i.adminJobType ≠ AdminJobType.adminStop then freshEpoch
                 else i.epoch,
        startTs := i.startTs } ?_ ?_ ?_ ?_
    · exact hq
    · rw [applyPatches_append,
        applyPatches_patchState freshEpoch .failed .adminStop true rfl s i hi,
        applyPatches_cleanUpInfos_same s _ _]
    · exact Or.inr (Or.inl rfl)
    · rw [applyPatches_append,
        applyPatches_patchState freshEpoch .failed .adminStop true rfl s i hi,
        applyPatches_cleanUpInfos_same s _ _]
  have h2 : i.state ≠ .stopped := fun h => hsf (Or.inl h)
  have h3 : i.state ≠ .failed := fun h => hsf (Or.inr (Or.inl h))
  have h4 : i.state ≠ .finished := fun h => hsf (Or.inr (Or.inr h))
  by_cases hnorm : i.state = .normal
  · rw [tick_quiet_run cl now freshEpoch m _ s i hq hi hrm h2 h3 h4 herr hclean
      (handleError_nil_normal cl now freshEpoch { m with shouldBeRunning := true } s i hi hnorm)
      rfl]
    dsimp only
    rw [applied_quiet_run freshEpoch s i hi]
    refine tick2_quiet_normal_conclusions cl now freshEpoch _ _
      { state := FeedState.normal, adminJobType := AdminJobType.adminNone,
        error := i.error, warning := i.warning, epoch := i.epoch, startTs := i.startTs } ?_ ?_ ?_ ?_ ?_ ?_
    · exact hq
    · exact rfl
    · exact rfl
    · exact rfl
    · intro st0 h
      rcases hs : s.status with _ | st1
      · simp [hs] at h
      · simp [hs] at h
        subst h
        rfl
    · exact hclean
  by_cases hlet : m.lastErrorTime = 0
  · rw [tick_quiet_run cl now freshEpoch m _ s i hq hi hrm h2 h3 h4 herr hclean
      (handleError_nil_quiet cl now freshEpoch { m with shouldBeRunning := true } s i hi hnorm
        h2 hlet)
      rfl]
    dsimp only
    rw [applied_quiet_run freshEpoch s i hi]
    refine tick2_quiet_normal_conclusions cl now freshEpoch _ _
      { state := FeedState.normal, adminJobType := AdminJobType.adminNone,
        error := i.error, warning := i.warning, epoch := i.epoch, startTs := i.startTs } ?_ ?_ ?_ ?_ ?_ ?_
    · exact hq
    · exact rfl
    · exact rfl
    · exact rfl
    · intro st0 h
      rcases hs : s.status with _ | st1
      · simp [hs] at h
      · simp [hs] at h
        subst h
        rfl
    · exact hclean
  by_cases hin : (now : Int) - (m.lastErrorTime : Int) < m.backoffInterval
  · have hnu : isUnretryableOpt cl i.error = false := by
      cases hu : isUnretryableOpt cl i.error
      · rfl
      · exfalso
        cases hst0 : i.state <;> simp_all
    rw [tick_quiet_halt cl now freshEpoch m _ s i .error hq hi hrm h2 h3 h4 herr hclean
      (handleError_nil_within cl now freshEpoch { m with shouldBeRunning := true } s i hi hnorm
        h2 hlet hin)
      rfl]
    dsimp only
    rw [applied_quiet_halt freshEpoch .error .adminStop true rfl s i hi]
    refine tick2_quiet_error_conclusions cl now freshEpoch _ _
      { state := FeedState.error, adminJobType := AdminJobType.adminStop,
        error := i.error, warning := i.warning,
        epoch := if true = true ∧ i.adminJobType ≠ AdminJobType.adminStop then freshEpoch
                 else i.epoch,
        startTs := i.startTs } ?_ ?_ ?_ ?_ ?_ ?_ ?_ ?_ ?_
    · exact hq
    · exact rfl
    · exact rfl
    · exact rfl
    · exact hnu
    · exact hlet
    · exact hin
    · intro st0 h
      rcases hs : s.status with _ | st1
      · simp [hs] at h
      · simp [hs] at h
        subst h
        rfl
    · exact rfl
  by_cases hns : (m.errBackoff.nextBackOff now).1 = backoffStop
  · rw [tick_quiet_halt cl now freshEpoch m _ s i .failed hq hi hrm h2 h3 h4 herr hclean
      (handleError_nil_exhausted cl now freshEpoch { m with shouldBeRunning := true } s i hi
        hnorm h2 hlet hin hns)
      rfl]
    dsimp only
    rw [applied_quiet_halt freshEpoch .failed .adminStop true rfl s i hi]
    refine tick2_early_conclusions cl now freshEpoch _ _
      { state := FeedState.failed, adminJobType := AdminJobType.adminStop,
        error := i.error, warning := i.warning,
        epoch := if true = true ∧ i.adminJobType ≠ AdminJobType.adminStop then freshEpoch
                 else i.epoch,
        startTs := i.startTs } ?_ ?_ ?_ ?_
    · exact hq
    · exact rfl
    · exact Or.inr (Or.inl rfl)
    · exact rfl
  · rw [tick_quiet_run cl now freshEpoch m _ s i hq hi hrm h2 h3 h4 herr hclean
      (handleError_nil_advance cl now freshEpoch { m with shouldBeRunning := true } s i hi
        hnorm h2 hlet hin hns)
      rfl]
    dsimp only
    rw [applied_quiet_run freshEpoch s i hi]
    refine tick2_quiet_normal_conclusions cl now freshEpoch _ _
      { state := FeedState.normal, adminJobType := AdminJobType.adminNone,
        error := i.error, warning := i.warning, epoch := i.epoch, startTs := i.startTs } ?_ ?_ ?_ ?_ ?_ ?_
    · exact hq
    · exact rfl
    · exact rfl
    · exact rfl
    · intro st0 h
      rcases hs : s.status with _ | st1
      · simp [hs] at h
      · simp [hs] at h
        subst h
        rfl
    · exact hclean

theorem tick_idempotence_witness :
    applyPatches (applyPatches sampleState
        (Tick sampleClassifier 2 7 sampleManager sampleState).patches)
        (Tick sampleClassifier 2 7 (Tick sampleClassifier 2 7 sampleManager sampleState).fsm
          (applyPatches sampleState
            (Tick sampleClassifier 2 7 sampleManager sampleState).patches)).patches =
      applyPatches sampleState (Tick sampleClassifier 2 7 sampleManager sampleState).patches ∧
    (Tick sampleClassifier 2 7 (Tick sampleClassifier 2 7 sampleManager sampleState).fsm
        (applyPatches sampleState
          (Tick sampleClassifier 2 7 sampleManager sampleState).patches)).fsm.shouldBeRunning =
      (Tick sampleClassifier 2 7 sampleManager sampleState).fsm.shouldBeRunning ∧
    (Tick sampleClassifier 2 7 (Tick sampleClassifier 2 7 sampleManager sampleState).fsm
        (applyPatches sampleState
          (Tick sampleClassifier 2 7 sampleManager sampleState).patches)).fsm.shouldBeRemoved =
      (Tick sampleClassifier 2 7 sampleManager sampleState).fsm.shouldBeRemoved ∧
    (Tick sampleClassifier 2 7 (Tick sampleClassifier 2 7 sampleManager sampleState).fsm
        (applyPatches sampleState
          (Tick sampleClassifier 2 7 sampleManager sampleState).patches)).adminJobPending =
      (Tick sampleClassifier 2 7 sampleManager sampleState).adminJobPending ∧
    (patchChanges (applyPatches sampleState
        (Tick sampleClassifier 2 7 sampleManager sampleState).patches)
        (Tick sampleClassifier 2 7 (Tick sampleClassifier 2 7 sampleManager sampleState).fsm
          (applyPatches sampleState
            (Tick sampleClassifier 2 7 sampleManager sampleState).patches)).patches).all
      (· = false) = true :=
  tick_idempotence sampleClassifier 2 7 sampleManager sampleState sampleInfo rfl rfl
    (by decide) (by decide)
